import Mathlib

/-!
Shallow embedding of the tabular data adapters of the qml-TableView-example
repository: `PythonTableModel` (src/tableModel.py), `IrisTableModel`
(src/irisTableModel.py, DuckDB-backed) and `PostgresTableModel`
(src/postgresTableModel.py, Polars-backed), together with proofs about the
adapter contract (bounds checks, type coercion, sorting, insertion and
removal of rows, header labels, change notifications and failure handling).

Modelling conventions:
* Python runtime values that flow through the adapters are modelled by
  `PyVal` (strings, ints, floats).  Python floats are modelled exactly by
  fractions `PyFloat` with a positive denominator; every float literal in
  the repository is a small decimal, so this is an exact model of the values
  involved, and comparison/rendering are defined semantically on fractions.
* Python `int(...)` / `float(...)` / `str(...)` are modelled by `pyInt`,
  `pyFloat`, `pyStr`; the string parsers cover optional spaces, an optional
  sign and decimal numerals (the fragment exercised by the repository).
* Qt signals emitted by an operation are returned explicitly as a
  `List Sig`; an operation that cannot raise to its caller is a total Lean
  function, and one that can raise (DuckDB query failures) returns `Except`.
* `list.sort(key=..., reverse=...)`, DuckDB `ORDER BY` and Polars
  `DataFrame.sort` are modelled by the stable `List.mergeSort` (with the
  comparator reversed for descending order, which matches CPython's stable
  `reverse=True` semantics).
-/

namespace TableModels

/-- Model of a Python float as an exact fraction `num / (den1 + 1)`.
The denominator is positive by construction; fractions are not required to
be reduced, and all semantic operations (comparison, rendering, truncation)
are representation independent. -/
structure PyFloat where
  num : Int
  den1 : Nat
deriving DecidableEq, Repr

/-- The (positive) denominator of a `PyFloat`. -/
def PyFloat.den (q : PyFloat) : Nat := q.den1 + 1

/-- Comparison of two model floats by cross multiplication. -/
def PyFloat.le (a b : PyFloat) : Bool :=
  decide (a.num * (b.den : Int) ≤ b.num * (a.den : Int))

/-- The float `0.0`. -/
def PyFloat.zero : PyFloat := { num := 0, den1 := 0 }

/-- A Python value as handled by the table models: a string, an int or a
float. -/
inductive PyVal where
  | pstr (s : String)
  | pint (n : Int)
  | pfloat (q : PyFloat)
deriving DecidableEq, Repr

/-- Characters dropped by Python's numeric constructors around a numeral. -/
def trimSpaces (cs : List Char) : List Char :=
  ((cs.dropWhile (· = ' ')).reverse.dropWhile (· = ' ')).reverse

/-- Split a leading sign off a character list. -/
def splitSign : List Char → Bool × List Char
  | '-' :: rest => (true, rest)
  | '+' :: rest => (false, rest)
  | cs => (false, cs)

/-- Numeric value of a list of decimal digits. -/
def digitsVal (cs : List Char) : Nat :=
  cs.foldl (fun a c => a * 10 + (c.toNat - 48)) 0

/-- Model of Python `int(s)` for a string: optional spaces, optional sign,
one or more decimal digits; anything else raises `ValueError`, modelled as
`none`. -/
def parseIntStr (s : String) : Option Int :=
  let cs := trimSpaces s.toList
  let (neg, ds) := splitSign cs
  if !ds.isEmpty && ds.all Char.isDigit then
    some (if neg then -(digitsVal ds : Int) else (digitsVal ds : Int))
  else none

/-- Model of Python `float(s)` for a string: optional spaces, optional sign,
a decimal numeral with an optional fractional part (the fragment of float
syntax the repository exercises); anything else is `none` (`ValueError`). -/
def parseFloatStr (s : String) : Option PyFloat :=
  let cs := trimSpaces s.toList
  let (neg, ds) := splitSign cs
  let ip := ds.takeWhile Char.isDigit
  let rest := ds.dropWhile Char.isDigit
  let core : Option PyFloat :=
    match rest with
    | [] =>
      if ip.isEmpty then none
      else some { num := (digitsVal ip : Int), den1 := 0 }
    | '.' :: fp =>
      if fp.all Char.isDigit && (!ip.isEmpty || !fp.isEmpty) then
        some { num := (digitsVal ip * 10 ^ fp.length + digitsVal fp : Int),
               den1 := 10 ^ fp.length - 1 }
      else none
    | _ => none
  core.map (fun q => if neg then { q with num := -q.num } else q)

/-- Model of Python `int(value)` on a runtime value: ints pass through,
floats truncate toward zero, strings are parsed. -/
def pyInt : PyVal → Option Int
  | .pint n => some n
  | .pfloat q => some (q.num.tdiv (q.den : Int))
  | .pstr s => parseIntStr s

/-- Model of Python `float(value)` on a runtime value. -/
def pyFloat : PyVal → Option PyFloat
  | .pint n => some { num := n, den1 := 0 }
  | .pfloat q => some q
  | .pstr s => parseFloatStr s

/-- Decimal rendering of a natural number, left padded with zeros to `k`
digits. -/
def padZeros (n k : Nat) : String :=
  let s := toString n
  String.mk (List.replicate (k - s.length) '0') ++ s

/-- The least number of decimal digits (at most 18) after which the
fraction scales to an integer; the floats in the repository are all short
decimals, for which this is exact. -/
def PyFloat.decLen (q : PyFloat) : Nat :=
  (((List.range 19).find? (fun k => (q.num * (10 : Int) ^ k) % (q.den : Int) == 0)).getD 18)

/-- Model of Python `str(float)` (shortest decimal rendering, with a
trailing `.0` for integral values). -/
def floatStr (q : PyFloat) : String :=
  let k := q.decLen
  let a := ((q.num * (10 : Int) ^ k) / (q.den : Int)).natAbs
  (if q.num < 0 then "-" else "") ++
    (if k = 0 then toString a ++ ".0"
     else toString (a / 10 ^ k) ++ "." ++ padZeros (a % 10 ^ k) k)

/-- Model of Python `str(value)` on a runtime value. -/
def pyStr : PyVal → String
  | .pstr s => s
  | .pint n => toString n
  | .pfloat q => floatStr q

/-- Round `num / den` (with `den > 0`) to the nearest integer, ties to
even: the rounding used by Python's fixed precision float formatting on
the decimal values in scope. -/
def rheInt (num : Int) (den : Nat) : Int :=
  let f := num.fdiv (den : Int)
  let r2 := 2 * (num - f * (den : Int))
  if r2 < (den : Int) then f
  else if (den : Int) < r2 then f + 1
  else if f % 2 = 0 then f else f + 1

/-- Model of Python `f"{q:.2f}"` on a model float. -/
def formatFixed2 (q : PyFloat) : String :=
  let n := rheInt (q.num * 100) q.den
  (if n < 0 then "-" else "") ++ toString (n.natAbs / 100) ++ "." ++ padZeros (n.natAbs % 100) 2

/-- Lexicographic comparison of character lists by code point (the order
Python uses on `str`). -/
def charListLe : List Char → List Char → Bool
  | [], _ => true
  | _ :: _, [] => false
  | a :: as, b :: bs =>
    if a.toNat < b.toNat then true
    else if b.toNat < a.toNat then false
    else charListLe as bs

/-- Model of Python string comparison `s <= t`. -/
def strLe (a b : String) : Bool := charListLe a.toList b.toList

/-- Qt item data roles (all roles other than display/edit collapse to
`other`, which every adapter rejects uniformly). -/
inductive Role where
  | display
  | edit
  | other
deriving DecidableEq, Repr

/-- Qt header orientations. -/
inductive Orient where
  | horizontal
  | vertical
deriving DecidableEq, Repr

/-- Qt sort orders. -/
inductive SortOrder where
  | asc
  | desc
deriving DecidableEq, Repr

/-- Whether the order is descending. -/
def SortOrder.isDesc : SortOrder → Bool
  | .asc => false
  | .desc => true

/-- Change notifications a model can emit back to the view. -/
inductive Sig where
  | dataChanged (row col : Int)
  | layoutAboutToBeChanged
  | layoutChanged
  | beginInsertRows (first last : Int)
  | endInsertRows
  | beginRemoveRows (first last : Int)
  | endRemoveRows
deriving DecidableEq, Repr

/-- Model of `QModelIndex.isValid()` for an index addressed by row and
column: a valid table index has nonnegative coordinates. -/
def indexValid (row col : Int) : Bool := decide (0 ≤ row) && decide (0 ≤ col)

/-- Reverse a comparator when `rev` is true: CPython's
`list.sort(reverse=True)` is the stable sort under the flipped comparator,
and descending `ORDER BY` is modelled the same way. -/
def revOrd {α : Type} (le : α → α → Bool) (rev : Bool) : α → α → Bool :=
  fun a b => if rev then le b a else le a b

/-! ### PythonTableModel (src/tableModel.py)

State: the list-of-lists `self._data`, the fixed `self._columns`, and the
sort bookkeeping `self._sort_column` / `self._sort_order`. -/

/-- State of the list backed `PythonTableModel`. -/
structure PythonTableModel where
  _data : List (List PyVal)
  _columns : List String
  _sort_column : Int
  _sort_order : SortOrder
deriving DecidableEq, Repr

/-- `row[c]` for a row list (out of range positions, which the checked call
sites never produce, default to the empty string). -/
def rowGet (r : List PyVal) (c : Nat) : PyVal := r.getD c (.pstr "")

/-- The freshly constructed model, with the column definitions and the ten
sample rows of `PythonTableModel.__init__`. -/
def pyInit : PythonTableModel :=
  { _data :=
      [ [.pstr "Alice", .pint 28, .pstr "New York", .pfloat ⟨955, 9⟩, .pstr "Active"],
        [.pstr "Bob", .pint 34, .pstr "San Francisco", .pfloat ⟨872, 9⟩, .pstr "Active"],
        [.pstr "Charlie", .pint 25, .pstr "Seattle", .pfloat ⟨928, 9⟩, .pstr "Inactive"],
        [.pstr "Diana", .pint 31, .pstr "Austin", .pfloat ⟨889, 9⟩, .pstr "Active"],
        [.pstr "Eve", .pint 29, .pstr "Boston", .pfloat ⟨913, 9⟩, .pstr "Active"],
        [.pstr "Frank", .pint 42, .pstr "Chicago", .pfloat ⟨856, 9⟩, .pstr "Inactive"],
        [.pstr "Grace", .pint 27, .pstr "Denver", .pfloat ⟨942, 9⟩, .pstr "Active"],
        [.pstr "Henry", .pint 36, .pstr "Portland", .pfloat ⟨897, 9⟩, .pstr "Active"],
        [.pstr "Ivy", .pint 30, .pstr "Miami", .pfloat ⟨931, 9⟩, .pstr "Active"],
        [.pstr "Jack", .pint 33, .pstr "Phoenix", .pfloat ⟨864, 9⟩, .pstr "Inactive"] ],
    _columns := ["Name", "Age", "City", "Score", "Status"],
    _sort_column := -1,
    _sort_order := .asc }

/-- `rowCount`: the length of `self._data` (the parent index is always the
invalid root index for a table). -/
def PythonTableModel.rowCount (m : PythonTableModel) : Nat := m._data.length

/-- `columnCount`: the length of `self._columns`. -/
def PythonTableModel.columnCount (m : PythonTableModel) : Nat := m._columns.length

/-- `data`: bounds checked read of one cell, rendered through `str(...)`
for both the display and the edit role; every other role is absent. -/
def PythonTableModel.data (m : PythonTableModel) (row col : Int) (role : Role) :
    Option String :=
  if ¬ indexValid row col then none
  else if row < 0 ∨ (m._data.length : Int) ≤ row then none
  else if col < 0 ∨ (m._columns.length : Int) ≤ col then none
  else if role = .display ∨ role = .edit then
    some (pyStr (rowGet (m._data.getD row.toNat []) col.toNat))
  else none

/-- The per column write coercion of `PythonTableModel.setData`: column 1
(Age) runs `int(value)`, column 3 (Score) runs `float(value)`, every other
column stores `str(value)`; `none` models the caught
`ValueError`/`TypeError`. -/
def pyCoerce (col : Int) (v : PyVal) : Option PyVal :=
  if col = 1 then (pyInt v).map .pint
  else if col = 3 then (pyFloat v).map .pfloat
  else some (.pstr (pyStr v))

/-- `setData`: bounds checks, per column coercion, in place update and a
single `dataChanged` notification; returns the success flag, the new state
and the emitted signals.  No rejection path raises to the caller. -/
def PythonTableModel.setData (m : PythonTableModel) (row col : Int) (value : PyVal)
    (role : Role) : Bool × PythonTableModel × List Sig :=
  if ¬ indexValid row col then (false, m, [])
  else if row < 0 ∨ (m._data.length : Int) ≤ row then (false, m, [])
  else if col < 0 ∨ (m._columns.length : Int) ≤ col then (false, m, [])
  else if role = .edit ∨ role = .display then
    match pyCoerce col value with
    | none => (false, m, [])
    | some v =>
      (true,
       { m with _data :=
           m._data.set row.toNat ((m._data.getD row.toNat []).set col.toNat v) },
       [.dataChanged row col])
  else (false, m, [])

/-- `headerData`: column names horizontally, 1-based row numbers
vertically, and the empty string for any other role or out of range
section. -/
def PythonTableModel.headerData (m : PythonTableModel) (sec : Int) (o : Orient)
    (role : Role) : String :=
  if role ≠ .display then ""
  else
    match o with
    | .horizontal =>
      if 0 ≤ sec ∧ sec < (m._columns.length : Int) then
        m._columns.getD sec.toNat ""
      else ""
    | .vertical =>
      if 0 ≤ sec ∧ sec < (m._data.length : Int) then
        toString (sec + 1)
      else ""

/-- The numeric sort key `float(row[column])` of `PythonTableModel.sort`
(only evaluated when every cell of the column parses). -/
def rowFloatLe (c : Nat) (a b : List PyVal) : Bool :=
  PyFloat.le ((pyFloat (rowGet a c)).getD PyFloat.zero) ((pyFloat (rowGet b c)).getD PyFloat.zero)

/-- The string sort key `str(row[column])` of `PythonTableModel.sort`. -/
def rowStrLe (c : Nat) (a b : List PyVal) : Bool :=
  strLe (pyStr (rowGet a c)) (pyStr (rowGet b c))

/-- The in place sort of `PythonTableModel.sort`: columns 1 and 3 try the
numeric key `float(row[column])` — CPython computes all keys before
reordering, so if any cell fails to parse the raised `ValueError` leaves
the list untouched and the handler redoes the whole sort with the string
key `str(row[column])`; other columns use the string key directly. -/
def pySortData (rows : List (List PyVal)) (c : Nat) (rev : Bool) : List (List PyVal) :=
  if c = 1 ∨ c = 3 then
    if rows.all (fun r => (pyFloat (rowGet r c)).isSome) then
      rows.mergeSort (revOrd (rowFloatLe c) rev)
    else rows.mergeSort (revOrd (rowStrLe c) rev)
  else rows.mergeSort (revOrd (rowStrLe c) rev)

/-- `sort`: silently ignores an out of range column, otherwise records the
sort state, physically reorders `self._data` and brackets the change with
the two layout notifications. -/
def PythonTableModel.sort (m : PythonTableModel) (column : Int) (order : SortOrder) :
    PythonTableModel × List Sig :=
  if column < 0 ∨ (m._columns.length : Int) ≤ column then (m, [])
  else
    ({ m with _sort_column := column, _sort_order := order,
              _data := pySortData m._data column.toNat order.isDesc },
     [.layoutAboutToBeChanged, .layoutChanged])

/-- The default row inserted by `PythonTableModel.insertRows`; the name
embeds `len(self._data) + 1` evaluated when the row is created. -/
def pyDefaultRow (dataLen : Nat) : List PyVal :=
  [.pstr ("New Person " ++ toString (dataLen + 1)), .pint 25, .pstr "Unknown",
   .pfloat PyFloat.zero, .pstr "Active"]

/-- The insertion loop of `PythonTableModel.insertRows`: for each
`i in range(count)`, insert a default row at `row + i` (the default name
reads the current list length). -/
def pyInsertLoop (rows : List (List PyVal)) (row i : Nat) : Nat → List (List PyVal)
  | 0 => rows
  | k + 1 => pyInsertLoop (rows.insertIdx (row + i) (pyDefaultRow rows.length)) row (i + 1) k

/-- `insertRows`: validates `row ∈ [0, len]` and `count ≥ 1`, then inserts
`count` default rows bracketed by the insert notifications. -/
def PythonTableModel.insertRows (m : PythonTableModel) (row count : Int) :
    Bool × PythonTableModel × List Sig :=
  if row < 0 ∨ (m._data.length : Int) < row then (false, m, [])
  else if count < 1 then (false, m, [])
  else
    (true,
     { m with _data := pyInsertLoop m._data row.toNat 0 count.toNat },
     [.beginInsertRows row (row + count - 1), .endInsertRows])

/-- Repeated `del l[row]` (`k` times), the deletion loop of
`PythonTableModel.removeRows` and the index popping loop of
`PostgresTableModel.removeRows`. -/
def eraseIdxTimes {α : Type} (l : List α) (row : Nat) : Nat → List α
  | 0 => l
  | k + 1 => eraseIdxTimes (l.eraseIdx row) row k

/-- `removeRows`: validates `row ∈ [0, len)`, `count ≥ 1` and
`row + count ≤ len`, then deletes `count` rows at position `row` bracketed
by the remove notifications. -/
def PythonTableModel.removeRows (m : PythonTableModel) (row count : Int) :
    Bool × PythonTableModel × List Sig :=
  if row < 0 ∨ (m._data.length : Int) ≤ row then (false, m, [])
  else if count < 1 then (false, m, [])
  else if (m._data.length : Int) < row + count then (false, m, [])
  else
    (true,
     { m with _data := eraseIdxTimes m._data row.toNat count.toNat },
     [.beginRemoveRows row (row + count - 1), .endRemoveRows])

/-! ### IrisTableModel (src/irisTableModel.py)

The DuckDB `iris` table is modelled as a list of `IrisRow` in the store's
natural (insertion) order; `conn.execute` is modelled by popping one entry
off a queue of injected outcomes (`true` = the call raises), so that a
healthy connection is the empty queue and query failures can be studied
exactly where the source wraps them in `try`/`except`. -/

/-- One row of the DuckDB `iris` table: the stable integer primary key and
the five visible columns. -/
structure IrisRow where
  id : Int
  sepal_length : PyFloat
  sepal_width : PyFloat
  petal_length : PyFloat
  petal_width : PyFloat
  species : String
deriving DecidableEq, Repr

/-- The numeric column of an `IrisRow` at visible position `c < 4`. -/
def IrisRow.numAt (r : IrisRow) : Nat → PyFloat
  | 0 => r.sepal_length
  | 1 => r.sepal_width
  | 2 => r.petal_length
  | _ => r.petal_width

/-- Write the coerced value into visible column `c` of a row (numeric
columns receive floats, the species column receives strings; other
combinations cannot reach this point). -/
def IrisRow.setCol (r : IrisRow) (c : Nat) (v : PyVal) : IrisRow :=
  match c, v with
  | 0, .pfloat q => { r with sepal_length := q }
  | 1, .pfloat q => { r with sepal_width := q }
  | 2, .pfloat q => { r with petal_length := q }
  | 3, .pfloat q => { r with petal_width := q }
  | 4, .pstr s => { r with species := s }
  | _, _ => r

/-- State of the DuckDB backed `IrisTableModel`: the backing table, the
sort bookkeeping, the cached row count and the injected outcomes of the
upcoming `conn.execute` calls. -/
structure IrisTableModel where
  iris : List IrisRow
  _sort_column : Int
  _sort_order : SortOrder
  _cached_row_count : Nat
  conn : List Bool
deriving DecidableEq, Repr

/-- The fixed `self._columns` of the iris model. -/
def irisColumns : List String :=
  ["sepal_length", "sepal_width", "petal_length", "petal_width", "species"]

/-- Perform one `conn.execute` call: report whether it raises and pop the
injected outcome queue (an empty queue means the call succeeds). -/
def IrisTableModel.exec (m : IrisTableModel) : Bool × IrisTableModel :=
  (m.conn.headD false, { m with conn := m.conn.tail })

/-- The `ORDER BY` comparator of `_get_row_by_position` for sort column
`c`: DuckDB compares the four DOUBLE columns numerically and the VARCHAR
species column lexicographically. -/
def irisKeyLe (c : Nat) (a b : IrisRow) : Bool :=
  if c < 4 then PyFloat.le (a.numAt c) (b.numAt c) else strLe a.species b.species

/-- The rows in their current visible order: natural order when no sort is
active (`_sort_column = -1`), otherwise the stable `ORDER BY` order of the
query issued by `_get_row_by_position`. -/
def IrisTableModel.sortedRows (m : IrisTableModel) : List IrisRow :=
  if 0 ≤ m._sort_column then
    m.iris.mergeSort (revOrd (irisKeyLe m._sort_column.toNat) m._sort_order.isDesc)
  else m.iris

/-- `_get_row_by_position`: one `SELECT ... LIMIT 1 OFFSET row` execute
(call sites only pass nonnegative positions); `none` models an empty
result, `Except.error` a raised query failure. -/
def IrisTableModel.getRowByPosition (m : IrisTableModel) (row : Nat) :
    Except Unit (Option IrisRow) × IrisTableModel :=
  let (f, m1) := m.exec
  if f then (.error (), m1) else (.ok m1.sortedRows[row]?, m1)

/-- `_get_row_count`: one `SELECT COUNT(*)` execute. -/
def IrisTableModel.getRowCountQ (m : IrisTableModel) : Except Unit Nat × IrisTableModel :=
  let (f, m1) := m.exec
  if f then (.error (), m1) else (.ok m1.iris.length, m1)

/-- `rowCount`: the cached row count (refreshed after structural
mutations). -/
def IrisTableModel.rowCount (m : IrisTableModel) : Nat := m._cached_row_count

/-- `columnCount`. -/
def IrisTableModel.columnCount (_ : IrisTableModel) : Nat := irisColumns.length

/-- Rendering of one visible cell by `IrisTableModel.data`: DOUBLE columns
arrive as Python floats and are formatted with two decimals, the species
column with plain `str`. -/
def irisRender (r : IrisRow) (c : Nat) : String :=
  if c < 4 then formatFixed2 (r.numAt c) else r.species

/-- `data`: bounds checked read that re-issues the sorted query for the
requested position; a query failure propagates to the caller (the read is
not wrapped in `try`). -/
def IrisTableModel.data (m : IrisTableModel) (row col : Int) (role : Role) :
    Except Unit (Option String) × IrisTableModel :=
  if ¬ indexValid row col then (.ok none, m)
  else if row < 0 ∨ (m._cached_row_count : Int) ≤ row then (.ok none, m)
  else if col < 0 ∨ (irisColumns.length : Int) ≤ col then (.ok none, m)
  else if role = .display ∨ role = .edit then
    match m.getRowByPosition row.toNat with
    | (.error e, m1) => (.error e, m1)
    | (.ok none, m1) => (.ok none, m1)
    | (.ok (some r), m1) => (.ok (some (irisRender r col.toNat)), m1)
  else (.ok none, m)

/-- The write coercion of `IrisTableModel.setData`: the four numeric
columns run `float(value)`, the species column stores `str(value)`. -/
def irisCoerce (col : Int) (v : PyVal) : Option PyVal :=
  if col < 4 then (pyFloat v).map .pfloat else some (.pstr (pyStr v))

/-- `setData`: bounds checks, position-to-id resolution (outside `try`, so
a failure of that read raises), coercion, then the guarded `UPDATE` by id
with a `dataChanged` notification on success; a raised `UPDATE` is caught
and surfaced as `False`. -/
def IrisTableModel.setData (m : IrisTableModel) (row col : Int) (value : PyVal)
    (role : Role) : Except Unit (Bool × IrisTableModel × List Sig) :=
  if ¬ indexValid row col then .ok (false, m, [])
  else if row < 0 ∨ (m._cached_row_count : Int) ≤ row then .ok (false, m, [])
  else if col < 0 ∨ (irisColumns.length : Int) ≤ col then .ok (false, m, [])
  else if role = .edit ∨ role = .display then
    match m.getRowByPosition row.toNat with
    | (.error e, _) => .error e
    | (.ok none, m1) => .ok (false, m1, [])
    | (.ok (some r), m1) =>
      match irisCoerce col value with
      | none => .ok (false, m1, [])
      | some v =>
        let (f, m2) := m1.exec
        if f then .ok (false, m2, [])
        else
          .ok (true,
               { m2 with iris :=
                   m2.iris.map (fun x => if x.id = r.id then x.setCol col.toNat v else x) },
               [.dataChanged row col])
  else .ok (false, m, [])

/-- `title()` of a column name after replacing underscores by spaces. -/
def titleCase (s : String) : String :=
  String.intercalate " " (((s.replace "_" " ").splitOn " ").map String.capitalize)

/-- `headerData`: title cased column names horizontally (with a bounds
check), and `section + 1` — with no bounds check — for every vertical
section; other roles are absent. -/
def IrisTableModel.headerData (m : IrisTableModel) (sec : Int) (o : Orient)
    (role : Role) : Option PyVal :=
  if role ≠ .display then none
  else
    match o with
    | .horizontal =>
      if 0 ≤ sec ∧ sec < (irisColumns.length : Int) then
        some (.pstr (titleCase (irisColumns.getD sec.toNat "")))
      else none
    | .vertical => some (.pint (sec + 1))

/-- `sort`: silently ignores an out of range column, otherwise only records
the sort state (ordering is re-derived per read) between the two layout
notifications. -/
def IrisTableModel.sort (m : IrisTableModel) (column : Int) (order : SortOrder) :
    IrisTableModel × List Sig :=
  if column < 0 ∨ (irisColumns.length : Int) ≤ column then (m, [])
  else
    ({ m with _sort_column := column, _sort_order := order },
     [.layoutAboutToBeChanged, .layoutChanged])

/-- `MAX(id) + 1` (or `0` for an empty table), the first id assigned by
`IrisTableModel.insertRows`. -/
def irisNextId (rows : List IrisRow) : Int :=
  match (rows.map (fun r => r.id)).max? with
  | some mx => mx + 1
  | none => 0

/-- The default row inserted by `IrisTableModel.insertRows`. -/
def irisDefaultRow (idv : Int) : IrisRow :=
  { id := idv, sepal_length := ⟨5, 0⟩, sepal_width := ⟨3, 0⟩,
    petal_length := ⟨4, 0⟩, petal_width := ⟨1, 0⟩, species := "setosa" }

/-- The `INSERT` loop of `IrisTableModel.insertRows`: one execute per new
row, appending to the backing table; a raised execute stops the loop with
the rows inserted so far kept (there is no transaction). -/
def irisInsertLoop (m : IrisTableModel) (nid : Int) (i : Nat) :
    Nat → Bool × IrisTableModel
  | 0 => (false, m)
  | k + 1 =>
    let (f, m1) := m.exec
    if f then (true, m1)
    else irisInsertLoop { m1 with iris := m1.iris ++ [irisDefaultRow (nid + i)] } nid (i + 1) k

/-- `insertRows`: validates against the cached count, then inside `try`
queries `MAX(id)`, appends `count` default rows with consecutive fresh ids
and refreshes the cached count; any raised execute is caught, and both the
success and the failure path emit `endInsertRows` after the initial
`beginInsertRows`. -/
def IrisTableModel.insertRows (m : IrisTableModel) (row count : Int) :
    Bool × IrisTableModel × List Sig :=
  if row < 0 ∨ (m._cached_row_count : Int) < row then (false, m, [])
  else if count < 1 then (false, m, [])
  else
    let sigs := [Sig.beginInsertRows row (row + count - 1), Sig.endInsertRows]
    let (f0, m0) := m.exec
    if f0 then (false, m0, sigs)
    else
      match irisInsertLoop m0 (irisNextId m0.iris) 0 count.toNat with
      | (true, m1) => (false, m1, sigs)
      | (false, m1) =>
        match m1.getRowCountQ with
        | (.error _, m2) => (false, m2, sigs)
        | (.ok n, m2) => (true, { m2 with _cached_row_count := n }, sigs)

/-- The id resolution loop of `IrisTableModel.removeRows`: re-query each
requested position (before any deletion executes) and collect the ids of
the rows found there. -/
def irisResolveIds (m : IrisTableModel) (acc : List Int) :
    List Nat → Except Unit (List Int) × IrisTableModel
  | [] => (.ok acc, m)
  | p :: ps =>
    match m.getRowByPosition p with
    | (.error e, m1) => (.error e, m1)
    | (.ok none, m1) => irisResolveIds m1 acc ps
    | (.ok (some r), m1) => irisResolveIds m1 (acc ++ [r.id]) ps

/-- The `DELETE` loop of `IrisTableModel.removeRows`: one execute per
resolved id; a raised execute stops the loop with the earlier deletions
kept. -/
def irisDeleteIds (m : IrisTableModel) :
    List Int → Except Unit Unit × IrisTableModel
  | [] => (.ok (), m)
  | idv :: rest =>
    let (f, m1) := m.exec
    if f then (.error (), m1)
    else irisDeleteIds { m1 with iris := m1.iris.filter (fun r => r.id != idv) } rest

/-- `removeRows`: validates against the cached count, resolves the
positions `[row, row+count)` to ids under the current sort order, deletes
by id and refreshes the cached count, all inside `try`; any raised execute
is caught, and both paths emit `endRemoveRows` after `beginRemoveRows`. -/
def IrisTableModel.removeRows (m : IrisTableModel) (row count : Int) :
    Bool × IrisTableModel × List Sig :=
  if row < 0 ∨ (m._cached_row_count : Int) ≤ row then (false, m, [])
  else if count < 1 then (false, m, [])
  else if (m._cached_row_count : Int) < row + count then (false, m, [])
  else
    let sigs := [Sig.beginRemoveRows row (row + count - 1), Sig.endRemoveRows]
    match irisResolveIds m [] ((List.range count.toNat).map (fun i => row.toNat + i)) with
    | (.error _, m1) => (false, m1, sigs)
    | (.ok ids, m1) =>
      match irisDeleteIds m1 ids with
      | (.error _, m2) => (false, m2, sigs)
      | (.ok _, m2) =>
        match m2.getRowCountQ with
        | (.error _, m3) => (false, m3, sigs)
        | (.ok n, m3) => (true, { m3 with _cached_row_count := n }, sigs)

/-! ### PostgresTableModel (src/postgresTableModel.py)

The Polars DataFrame loaded from PostgreSQL is modelled row major; column
dtypes from the query schema drive the write coercion.  A cell holds
`Option PyVal`, `none` modelling a Python/Polars null (the value of the
empty rows `insertRows` creates). -/

/-- The dtype groups `PostgresTableModel.setData` distinguishes: the Polars
integer dtypes, the float dtypes, and everything else (stored as text). -/
inductive DType where
  | tint
  | tfloat
  | tstr
deriving DecidableEq, Repr

/-- State of the Polars backed `PostgresTableModel`: the column schema
(name and dtype per column) and the row major frame. -/
structure PostgresTableModel where
  schema : List (String × DType)
  _df : List (List (Option PyVal))
  _sort_column : Int
  _sort_order : SortOrder
deriving DecidableEq, Repr

/-- `rowCount`: `len(self._df)`. -/
def PostgresTableModel.rowCount (m : PostgresTableModel) : Nat := m._df.length

/-- `columnCount`: `len(self._df.columns)`. -/
def PostgresTableModel.columnCount (m : PostgresTableModel) : Nat := m.schema.length

/-- `data`: bounds checked read; a non-null value renders through `str`,
a null renders as the empty string; other roles are absent. -/
def PostgresTableModel.data (m : PostgresTableModel) (row col : Int) (role : Role) :
    Option String :=
  if ¬ indexValid row col then none
  else if row < 0 ∨ (m._df.length : Int) ≤ row then none
  else if col < 0 ∨ (m.schema.length : Int) ≤ col then none
  else if role = .display ∨ role = .edit then
    some (match (m._df.getD row.toNat []).getD col.toNat none with
          | none => ""
          | some v => pyStr v)
  else none

/-- The dtype driven write coercion of `PostgresTableModel.setData`:
`int(value)` for integer columns, `float(value)` for float columns,
`str(value)` otherwise; `none` models the caught
`ValueError`/`TypeError`. -/
def pgCoerce (d : DType) (v : PyVal) : Option PyVal :=
  match d with
  | .tint => (pyInt v).map .pint
  | .tfloat => (pyFloat v).map .pfloat
  | .tstr => some (.pstr (pyStr v))

/-- `setData`: bounds checks, dtype coercion and in place cell update with
a single `dataChanged` notification; coercion failures are caught and
surfaced as `False`. -/
def PostgresTableModel.setData (m : PostgresTableModel) (row col : Int) (value : PyVal)
    (role : Role) : Bool × PostgresTableModel × List Sig :=
  if ¬ indexValid row col then (false, m, [])
  else if row < 0 ∨ (m._df.length : Int) ≤ row then (false, m, [])
  else if col < 0 ∨ (m.schema.length : Int) ≤ col then (false, m, [])
  else if role = .edit ∨ role = .display then
    match pgCoerce (m.schema.getD col.toNat ("", .tstr)).2 value with
    | none => (false, m, [])
    | some v =>
      (true,
       { m with _df :=
           m._df.set row.toNat ((m._df.getD row.toNat []).set col.toNat (some v)) },
       [.dataChanged row col])
  else (false, m, [])

/-- `capitalize()` of a column name after replacing underscores by
spaces (Python lowercases the rest of the string). -/
def sentenceCase (s : String) : String := ((s.replace "_" " ").toLower).capitalize

/-- `headerData`: sentence cased column names horizontally (with a bounds
check), and `section + 1` — with no bounds check — for every vertical
section; other roles are absent. -/
def PostgresTableModel.headerData (m : PostgresTableModel) (sec : Int) (o : Orient)
    (role : Role) : Option PyVal :=
  if role ≠ .display then none
  else
    match o with
    | .horizontal =>
      if 0 ≤ sec ∧ sec < (m.schema.length : Int) then
        some (.pstr (sentenceCase ((m.schema.getD sec.toNat ("", .tstr)).1)))
      else none
    | .vertical => some (.pint (sec + 1))

/-- Comparison of two non-null cell values, total across the three value
shapes (a frame column is dtype homogeneous, so cross shape comparisons
never occur in reachable frames; they are ordered by shape for
totality). -/
def pvalLe : PyVal → PyVal → Bool
  | .pstr x, .pstr y => strLe x y
  | .pstr _, _ => true
  | .pint _, .pstr _ => false
  | .pint x, .pint y => decide (x ≤ y)
  | .pint _, .pfloat _ => true
  | .pfloat x, .pfloat y => PyFloat.le x y
  | .pfloat _, _ => false

/-- Comparison of two cells: nulls sort together in front of values. -/
def optCellLe : Option PyVal → Option PyVal → Bool
  | none, _ => true
  | some _, none => false
  | some a, some b => pvalLe a b

/-- The column comparator of `PostgresTableModel.sort`. -/
def pgColLe (c : Nat) (a b : List (Option PyVal)) : Bool :=
  optCellLe (a.getD c none) (b.getD c none)

/-- `sort`: silently ignores an out of range column, otherwise records the
sort state and replaces the frame by the frame sorted on that column,
between the two layout notifications. -/
def PostgresTableModel.sort (m : PostgresTableModel) (column : Int) (order : SortOrder) :
    PostgresTableModel × List Sig :=
  if column < 0 ∨ (m.schema.length : Int) ≤ column then (m, [])
  else
    ({ m with _sort_column := column, _sort_order := order,
              _df := m._df.mergeSort (revOrd (pgColLe column.toNat) order.isDesc) },
     [.layoutAboutToBeChanged, .layoutChanged])

/-- `insertRows`: validates `row ∈ [0, len]` and `count ≥ 1` in one
combined check, then concatenates `count` all-null rows at the requested
position (three concatenation shapes, as in the source). -/
def PostgresTableModel.insertRows (m : PostgresTableModel) (row count : Int) :
    Bool × PostgresTableModel × List Sig :=
  if row < 0 ∨ (m._df.length : Int) < row ∨ count < 1 then (false, m, [])
  else
    let emptyRows : List (List (Option PyVal)) :=
      List.replicate count.toNat (List.replicate m.schema.length none)
    let newDf :=
      if row = 0 then emptyRows ++ m._df
      else if (m._df.length : Int) ≤ row then m._df ++ emptyRows
      else m._df.take row.toNat ++ emptyRows ++ m._df.drop row.toNat
    (true, { m with _df := newDf },
     [.beginInsertRows row (row + count - 1), .endInsertRows])

/-- `removeRows`: validates the range, then pops the surviving row indices
out of `list(range(len(df)))` (`count` pops at position `row`) and keeps
exactly the rows at those indices. -/
def PostgresTableModel.removeRows (m : PostgresTableModel) (row count : Int) :
    Bool × PostgresTableModel × List Sig :=
  if row < 0 ∨ (m._df.length : Int) ≤ row ∨ count < 1 then (false, m, [])
  else if (m._df.length : Int) < row + count then (false, m, [])
  else
    let indices := eraseIdxTimes (List.range m._df.length) row.toNat count.toNat
    (true, { m with _df := indices.filterMap (fun i => m._df[i]?) },
     [.beginRemoveRows row (row + count - 1), .endRemoveRows])


/-! ### Concrete fixtures used by witnesses and counterexamples -/

/-- Rendering of an already coerced value the way `IrisTableModel.data`
renders the stored cell: floats with two decimals, anything else with
`str`. -/
def irisRenderV : PyVal → String
  | .pfloat q => formatFixed2 q
  | .pstr s => s
  | .pint n => toString n

/-- The rows kept by a healthy `removeRows row count`: those whose id is
not among the ids at the sorted positions `[row, row+count)`. -/
def irisRemaining (m : IrisTableModel) (row count : Nat) : List IrisRow :=
  m.iris.filter (fun r =>
    (((m.sortedRows.drop row).take count).map (fun x => x.id)).all (fun idv => r.id != idv))

/-- A small healthy iris table state with distinct ids (any table contents
are legitimate: the database file is reused as is when present). -/
def irisEx : IrisTableModel :=
  { iris :=
      [ { id := 0, sepal_length := ⟨51, 9⟩, sepal_width := ⟨35, 9⟩,
          petal_length := ⟨14, 9⟩, petal_width := ⟨2, 9⟩, species := "setosa" },
        { id := 1, sepal_length := ⟨70, 9⟩, sepal_width := ⟨32, 9⟩,
          petal_length := ⟨47, 9⟩, petal_width := ⟨14, 9⟩, species := "versicolor" },
        { id := 2, sepal_length := ⟨63, 9⟩, sepal_width := ⟨33, 9⟩,
          petal_length := ⟨60, 9⟩, petal_width := ⟨25, 9⟩, species := "virginica" } ],
    _sort_column := -1, _sort_order := .asc, _cached_row_count := 3, conn := [] }

/-- The iris fixture with a connection whose third `execute` call raises
(the second `INSERT` of an `insertRows` batch). -/
def irisC5 : IrisTableModel :=
  { irisEx with conn := [false, false, true] }

/-- A two row iris state sorted ascending by the first column. -/
def irisC6 : IrisTableModel :=
  { iris :=
      [ { id := 0, sepal_length := ⟨1, 0⟩, sepal_width := ⟨3, 0⟩,
          petal_length := ⟨4, 0⟩, petal_width := ⟨1, 0⟩, species := "setosa" },
        { id := 1, sepal_length := ⟨2, 0⟩, sepal_width := ⟨3, 0⟩,
          petal_length := ⟨4, 0⟩, petal_width := ⟨1, 0⟩, species := "setosa" } ],
    _sort_column := 0, _sort_order := .asc, _cached_row_count := 2, conn := [] }

/-- `irisC6` after a successful `setData(0, 0, "9.0")`: the edited row's
sepal length becomes `9.0`, which moves it to the last sorted position. -/
def irisC6upd : IrisTableModel :=
  { irisC6 with iris :=
      [ { id := 0, sepal_length := ⟨90, 9⟩, sepal_width := ⟨3, 0⟩,
          petal_length := ⟨4, 0⟩, petal_width := ⟨1, 0⟩, species := "setosa" },
        { id := 1, sepal_length := ⟨2, 0⟩, sepal_width := ⟨3, 0⟩,
          petal_length := ⟨4, 0⟩, petal_width := ⟨1, 0⟩, species := "setosa" } ] }

/-- A small data frame state for the Polars backed model: a text, an
integer and a float column. -/
def pgEx : PostgresTableModel :=
  { schema := [("task_name", .tstr), ("priority", .tint), ("effort", .tfloat)],
    _df :=
      [ [some (.pstr "alpha"), some (.pint 2), some (.pfloat ⟨15, 9⟩)],
        [some (.pstr "beta"), some (.pint 1), some (.pfloat ⟨25, 9⟩)] ],
    _sort_column := -1, _sort_order := .asc }

/-! ### Order properties of the sort comparators

Every comparator used by a model's sort is a total, transitive boolean
preorder; with `List.sorted_mergeSort` / `List.mergeSort_of_sorted` this
gives that each modelled sort is a sorted permutation and is idempotent. -/

theorem pyFloatLe_total (a b : PyFloat) : (PyFloat.le a b || PyFloat.le b a) = true := by
  simp only [PyFloat.le, Bool.or_eq_true, decide_eq_true_eq]
  exact le_total _ _

theorem pyFloatLe_trans (a b c : PyFloat) (h1 : PyFloat.le a b = true)
    (h2 : PyFloat.le b c = true) : PyFloat.le a c = true := by
  simp only [PyFloat.le, decide_eq_true_eq] at h1 h2 ⊢
  have hb : (0 : Int) < (b.den : Int) := by exact_mod_cast Nat.succ_pos b.den1
  have hc : (0 : Int) ≤ (c.den : Int) := Int.natCast_nonneg _
  have ha : (0 : Int) ≤ (a.den : Int) := Int.natCast_nonneg _
  have x1 := mul_le_mul_of_nonneg_right h1 hc
  have x2 := mul_le_mul_of_nonneg_right h2 ha
  have key : (b.den : Int) * (a.num * (c.den : Int)) ≤ (b.den : Int) * (c.num * (a.den : Int)) := by
    nlinarith [x1, x2]
  exact le_of_mul_le_mul_left key hb

theorem charListLe_total : ∀ (a b : List Char), (charListLe a b || charListLe b a) = true
  | [], [] => by simp [charListLe]
  | [], _ :: _ => by simp [charListLe]
  | _ :: _, [] => by simp [charListLe]
  | a :: as, b :: bs => by
    by_cases h1 : a.toNat < b.toNat
    · simp [charListLe, h1]
    · by_cases h2 : b.toNat < a.toNat
      · simp [charListLe, h1, h2]
      · simpa [charListLe, h1, h2] using charListLe_total as bs

theorem charListLe_trans : ∀ (a b c : List Char), charListLe a b = true →
    charListLe b c = true → charListLe a c = true
  | [], _, _, _, _ => by simp [charListLe]
  | _ :: _, [], _, h1, _ => by simp [charListLe] at h1
  | _ :: _, _ :: _, [], _, h2 => by simp [charListLe] at h2
  | a :: as, b :: bs, c :: cs, h1, h2 => by
    simp only [charListLe] at h1 h2 ⊢
    by_cases hab : a.toNat < b.toNat
    · by_cases hbc : b.toNat < c.toNat
      · have h : a.toNat < c.toNat := hab.trans hbc
        simp [h]
      · by_cases hcb : c.toNat < b.toNat
        · rw [if_neg hbc, if_pos hcb] at h2
          exact absurd h2 (by simp)
        · have h : a.toNat < c.toNat := by omega
          simp [h]
    · by_cases hba : b.toNat < a.toNat
      · rw [if_neg hab, if_pos hba] at h1
        exact absurd h1 (by simp)
      · rw [if_neg hab, if_neg hba] at h1
        by_cases hbc : b.toNat < c.toNat
        · have h : a.toNat < c.toNat := by omega
          simp [h]
        · by_cases hcb : c.toNat < b.toNat
          · rw [if_neg hbc, if_pos hcb] at h2
            exact absurd h2 (by simp)
          · rw [if_neg hbc, if_neg hcb] at h2
            have h3 : ¬ a.toNat < c.toNat := by omega
            have h4 : ¬ c.toNat < a.toNat := by omega
            rw [if_neg h3, if_neg h4]
            exact charListLe_trans as bs cs h1 h2

theorem strLe_total (a b : String) : (strLe a b || strLe b a) = true :=
  charListLe_total _ _

theorem strLe_trans (a b c : String) (h1 : strLe a b = true) (h2 : strLe b c = true) :
    strLe a c = true :=
  charListLe_trans _ _ _ h1 h2

theorem revOrd_total {α : Type} (le : α → α → Bool)
    (h : ∀ x y, (le x y || le y x) = true) (rev : Bool) (a b : α) :
    (revOrd le rev a b || revOrd le rev b a) = true := by
  cases rev
  · simpa [revOrd] using h a b
  · simpa [revOrd] using h b a

theorem revOrd_trans {α : Type} (le : α → α → Bool)
    (h : ∀ x y z, le x y = true → le y z = true → le x z = true) (rev : Bool)
    (a b c : α) (h1 : revOrd le rev a b = true) (h2 : revOrd le rev b c = true) :
    revOrd le rev a c = true := by
  cases rev
  · simp only [revOrd, if_neg Bool.false_ne_true] at h1 h2 ⊢
    exact h a b c h1 h2
  · simp only [revOrd, if_pos rfl] at h1 h2 ⊢
    exact h c b a h2 h1

theorem rowFloatLe_total (c : Nat) (a b : List PyVal) :
    (rowFloatLe c a b || rowFloatLe c b a) = true := by
  simp only [rowFloatLe]
  exact pyFloatLe_total _ _

theorem rowFloatLe_trans (c : Nat) (a b d : List PyVal) (h1 : rowFloatLe c a b = true)
    (h2 : rowFloatLe c b d = true) : rowFloatLe c a d = true := by
  simp only [rowFloatLe] at h1 h2 ⊢
  exact pyFloatLe_trans _ _ _ h1 h2

theorem rowStrLe_total (c : Nat) (a b : List PyVal) :
    (rowStrLe c a b || rowStrLe c b a) = true := by
  simp only [rowStrLe]
  exact strLe_total _ _

theorem rowStrLe_trans (c : Nat) (a b d : List PyVal) (h1 : rowStrLe c a b = true)
    (h2 : rowStrLe c b d = true) : rowStrLe c a d = true := by
  simp only [rowStrLe] at h1 h2 ⊢
  exact strLe_trans _ _ _ h1 h2

theorem irisKeyLe_total (c : Nat) (a b : IrisRow) :
    (irisKeyLe c a b || irisKeyLe c b a) = true := by
  by_cases h : c < 4
  · simp only [irisKeyLe, if_pos h]
    exact pyFloatLe_total _ _
  · simp only [irisKeyLe, if_neg h]
    exact strLe_total _ _

theorem irisKeyLe_trans (c : Nat) (a b d : IrisRow) (h1 : irisKeyLe c a b = true)
    (h2 : irisKeyLe c b d = true) : irisKeyLe c a d = true := by
  by_cases h : c < 4
  · simp only [irisKeyLe, if_pos h] at h1 h2 ⊢
    exact pyFloatLe_trans _ _ _ h1 h2
  · simp only [irisKeyLe, if_neg h] at h1 h2 ⊢
    exact strLe_trans _ _ _ h1 h2

theorem pvalLe_total (a b : PyVal) : (pvalLe a b || pvalLe b a) = true := by
  rcases a with s | n | q <;> rcases b with t | p | w <;> simp only [pvalLe]
  · exact strLe_total s t
  · rfl
  · rfl
  · rfl
  · simp only [Bool.or_eq_true, decide_eq_true_eq]
    exact le_total n p
  · rfl
  · rfl
  · rfl
  · exact pyFloatLe_total q w

theorem pvalLe_trans (a b c : PyVal) (h1 : pvalLe a b = true) (h2 : pvalLe b c = true) :
    pvalLe a c = true := by
  rcases a with s | n | q <;> rcases b with t | p | w <;> rcases c with u | r | x <;>
    simp_all only [pvalLe, decide_eq_true_eq] <;>
    first
      | rfl
      | exact (Bool.false_ne_true h1).elim
      | exact (Bool.false_ne_true h2).elim
      | exact strLe_trans _ _ _ h1 h2
      | exact le_trans h1 h2
      | exact pyFloatLe_trans _ _ _ h1 h2

theorem optCellLe_total (a b : Option PyVal) : (optCellLe a b || optCellLe b a) = true := by
  rcases a with _ | v <;> rcases b with _ | w <;> simp only [optCellLe]
  · rfl
  · rfl
  · rfl
  · exact pvalLe_total v w

theorem optCellLe_trans (a b c : Option PyVal) (h1 : optCellLe a b = true)
    (h2 : optCellLe b c = true) : optCellLe a c = true := by
  rcases a with _ | v <;> rcases b with _ | w <;> rcases c with _ | x <;>
    simp_all only [optCellLe] <;>
    first
      | rfl
      | exact (Bool.false_ne_true h1).elim
      | exact (Bool.false_ne_true h2).elim
      | exact pvalLe_trans _ _ _ h1 h2

theorem pgColLe_total (c : Nat) (a b : List (Option PyVal)) :
    (pgColLe c a b || pgColLe c b a) = true := by
  simp only [pgColLe]
  exact optCellLe_total _ _

theorem pgColLe_trans (c : Nat) (a b d : List (Option PyVal)) (h1 : pgColLe c a b = true)
    (h2 : pgColLe c b d = true) : pgColLe c a d = true := by
  simp only [pgColLe] at h1 h2 ⊢
  exact optCellLe_trans _ _ _ h1 h2

/-- A stable sort under a total transitive comparator is idempotent. -/
theorem mergeSort_idem {α : Type} (le : α → α → Bool)
    (ht : ∀ a b c, le a b = true → le b c = true → le a c = true)
    (htot : ∀ a b, (le a b || le b a) = true) (l : List α) :
    (l.mergeSort le).mergeSort le = l.mergeSort le :=
  List.mergeSort_of_sorted (List.sorted_mergeSort ht htot l)

/-! ### Structural helper lemmas -/

theorem eraseIdxTimes_eq_take_drop {α : Type} :
    ∀ (k : Nat) (l : List α) (row : Nat), row + k ≤ l.length →
      eraseIdxTimes l row k = l.take row ++ l.drop (row + k)
  | 0, l, row, _ => by
    simp only [eraseIdxTimes, Nat.add_zero]
    exact (List.take_append_drop row l).symm
  | k + 1, l, row, h => by
    have hrow : row < l.length := by omega
    have htk : (l.take row).length = row := by
      simp [List.length_take]
      omega
    rw [eraseIdxTimes, eraseIdxTimes_eq_take_drop k _ row
      (by rw [List.length_eraseIdx, if_pos hrow]; omega)]
    rw [List.eraseIdx_eq_take_drop_succ]
    rw [List.take_left' htk]
    have : row + k = (l.take row).length + k := by omega
    rw [this, List.drop_append, List.drop_drop]
    have : row + 1 + k = row + (k + 1) := by omega
    rw [this]

theorem eraseIdxTimes_length {α : Type} (k : Nat) (l : List α) (row : Nat)
    (h : row + k ≤ l.length) : (eraseIdxTimes l row k).length = l.length - k := by
  rw [eraseIdxTimes_eq_take_drop k l row h]
  simp [List.length_take, List.length_drop]
  omega

theorem pyInsertLoop_length :
    ∀ (k : Nat) (rows : List (List PyVal)) (row i : Nat), row + i ≤ rows.length →
      (pyInsertLoop rows row i k).length = rows.length + k
  | 0, _, _, _, _ => rfl
  | k + 1, rows, row, i, h => by
    rw [pyInsertLoop, pyInsertLoop_length k _ row (i + 1)
      (by rw [List.length_insertIdx _ _ (by omega)]; omega)]
    rw [List.length_insertIdx _ _ (by omega)]
    omega

theorem filterMap_getElem_range' {α : Type} (l : List α) :
    ∀ (b a : Nat), a + b ≤ l.length →
      (List.range' a b).filterMap (fun i => l[i]?) = (l.drop a).take b
  | 0, a, _ => by simp
  | b + 1, a, h => by
    have ha : a < l.length := by omega
    rw [List.range'_succ]
    simp only [List.filterMap_cons, List.getElem?_eq_getElem ha]
    rw [filterMap_getElem_range' l b (a + 1) (by omega)]
    rw [List.drop_eq_getElem_cons ha]
    rfl

/-- `IrisTableModel.exec` on a healthy connection. -/
theorem exec_nil {m : IrisTableModel} (h : m.conn = []) : m.exec = (false, m) := by
  unfold IrisTableModel.exec
  cases m
  simp_all

/-- `sortedRows` is a permutation of the backing table. -/
theorem sortedRows_perm (m : IrisTableModel) : m.sortedRows.Perm m.iris := by
  unfold IrisTableModel.sortedRows
  split_ifs
  · exact List.mergeSort_perm _ _
  · exact List.Perm.refl _

theorem sortedRows_length (m : IrisTableModel) : m.sortedRows.length = m.iris.length :=
  (sortedRows_perm m).length_eq

/-- `sortedRows` only depends on the table and the sort state, so popping
the connection queue does not change it. -/
theorem sortedRows_conn (m : IrisTableModel) (c : List Bool) :
    ({ m with conn := c } : IrisTableModel).sortedRows = m.sortedRows := rfl

/-- `_get_row_by_position` on a healthy connection. -/
theorem getRowByPosition_nil {m : IrisTableModel} (h : m.conn = []) (row : Nat) :
    m.getRowByPosition row = (.ok m.sortedRows[row]?, m) := by
  unfold IrisTableModel.getRowByPosition
  rw [exec_nil h]
  rfl

/-- `_get_row_count` on a healthy connection. -/
theorem getRowCountQ_nil {m : IrisTableModel} (h : m.conn = []) :
    m.getRowCountQ = (.ok m.iris.length, m) := by
  unfold IrisTableModel.getRowCountQ
  rw [exec_nil h]
  rfl

theorem range'_drop : ∀ (n s k : Nat), (List.range' s n).drop k = List.range' (s + k) (n - k)
  | 0, s, k => by simp
  | n + 1, s, 0 => by simp
  | n + 1, s, k + 1 => by
    rw [List.range'_succ]
    simp only [List.drop_succ_cons]
    rw [range'_drop n (s + 1) k]
    congr 1 <;> omega

/-- Shifting the start index through one step of the insert loop. -/
theorem appendDefault_shift (xs : List IrisRow) (nid : Int) (i j : Nat) :
    (xs ++ [irisDefaultRow (nid + (i : Int))]) ++
        (List.range j).map (fun t => irisDefaultRow (nid + ((i + 1 + t : Nat) : Int)))
      = xs ++ (List.range (j + 1)).map (fun t => irisDefaultRow (nid + ((i + t : Nat) : Int))) := by
  have hmap : (List.range j).map (fun t => irisDefaultRow (nid + ((i + 1 + t : Nat) : Int)))
      = (List.range j).map ((fun t => irisDefaultRow (nid + ((i + t : Nat) : Int))) ∘ Nat.succ) := by
    apply List.map_congr_left
    intro t _
    simp only [Function.comp_apply]
    congr 1
    omega
  rw [List.append_assoc, List.singleton_append, List.range_succ_eq_map, List.map_cons,
    List.map_map, hmap]
  simp

/-- The insert loop on a healthy connection: it never fails, appends
exactly the default rows with consecutive ids, and touches nothing else. -/
theorem irisInsertLoop_nil :
    ∀ (k : Nat) (m : IrisTableModel) (nid : Int) (i : Nat), m.conn = [] →
      irisInsertLoop m nid i k =
        (false, { m with iris := m.iris ++
            (List.range k).map (fun t => irisDefaultRow (nid + ((i + t : Nat) : Int))) })
  | 0, m, nid, i, h => by
    simp only [irisInsertLoop, List.range_zero, List.map_nil, List.append_nil]
  | k + 1, m, nid, i, h => by
    rw [irisInsertLoop, exec_nil h]
    simp only [Bool.false_eq_true, if_false]
    rw [irisInsertLoop_nil k { m with iris := m.iris ++ [irisDefaultRow (nid + i)] } nid (i + 1) h]
    rw [appendDefault_shift]

/-- The insert loop in general: whatever the injected outcomes, the result
state has some prefix of the intended default rows appended and the cached
count untouched. -/
theorem irisInsertLoop_partial :
    ∀ (k : Nat) (m : IrisTableModel) (nid : Int) (i : Nat),
      ∃ j, j ≤ k ∧
        (irisInsertLoop m nid i k).2.iris = m.iris ++
          (List.range j).map (fun t => irisDefaultRow (nid + ((i + t : Nat) : Int))) ∧
        (irisInsertLoop m nid i k).2._cached_row_count = m._cached_row_count
  | 0, m, nid, i => ⟨0, by simp [irisInsertLoop]⟩
  | k + 1, m, nid, i => by
    rw [irisInsertLoop]
    rcases hx : m.exec with ⟨f, m1⟩
    have hiris : m1.iris = m.iris := by
      unfold IrisTableModel.exec at hx
      cases hx
      rfl
    have hcache : m1._cached_row_count = m._cached_row_count := by
      unfold IrisTableModel.exec at hx
      cases hx
      rfl
    by_cases hf : f = true
    · subst hf
      refine ⟨0, by omega, ?_, ?_⟩ <;> simp [hiris, hcache]
    · simp only [Bool.not_eq_true] at hf
      subst hf
      simp only [Bool.false_eq_true, if_false]
      obtain ⟨j, hj, hi, hc⟩ :=
        irisInsertLoop_partial k { m1 with iris := m1.iris ++ [irisDefaultRow (nid + i)] } nid (i + 1)
      refine ⟨j + 1, by omega, ?_, ?_⟩
      · rw [hi]
        simp only [hiris]
        rw [appendDefault_shift]
      · rw [hc]
        exact hcache

/-- The id resolution loop on a healthy connection resolves the positions
`[row, row+k)` to the ids of the rows at those positions of the sorted
view. -/
theorem irisResolveIds_nil {m : IrisTableModel} (h : m.conn = []) :
    ∀ (k row : Nat) (acc : List Int), row + k ≤ m.sortedRows.length →
      irisResolveIds m acc (List.range' row k) =
        (.ok (acc ++ ((m.sortedRows.drop row).take k).map (fun r => r.id)), m)
  | 0, row, acc, _ => by simp [irisResolveIds]
  | k + 1, row, acc, hb => by
    have hrow : row < m.sortedRows.length := by omega
    rw [List.range'_succ]
    simp only [irisResolveIds, getRowByPosition_nil h, List.getElem?_eq_getElem hrow]
    rw [irisResolveIds_nil h k (row + 1) (acc ++ [(m.sortedRows[row]).id]) (by omega)]
    rw [List.drop_eq_getElem_cons hrow]
    simp [List.append_assoc]
    have hrow2 : row < (m.sortedRows.map (fun r => r.id)).length := by simpa using hrow
    rw [List.drop_eq_getElem_cons hrow2, List.take_succ_cons, List.getElem_map]

/-- The delete loop on a healthy connection deletes exactly the rows whose
id is in the list. -/
theorem irisDeleteIds_nil :
    ∀ (ids : List Int) (m : IrisTableModel), m.conn = [] →
      irisDeleteIds m ids =
        (.ok (), { m with iris := m.iris.filter (fun r => ids.all (fun idv => r.id != idv)) })
  | [], m, h => by
    simp only [irisDeleteIds, List.all_nil, List.filter_true]
  | id0 :: rest, m, h => by
    simp only [irisDeleteIds]
    rw [exec_nil h]
    simp only [Bool.false_eq_true, if_false]
    rw [irisDeleteIds_nil rest { m with iris := List.filter (fun r => r.id != id0) m.iris } h]
    simp only [List.filter_filter]
    have hfc : List.filter (fun a => (rest.all fun idv => a.id != idv) && (a.id != id0)) m.iris
        = List.filter (fun r => (id0 :: rest).all fun idv => r.id != idv) m.iris := by
      apply List.filter_congr
      intro a _
      simp only [List.all_cons]
      rw [Bool.and_comm]
    rw [hfc]

/-- `insertRows` on a healthy connection with valid arguments: it appends
`count` default rows with consecutive fresh ids and refreshes the cached
count, and the requested position appears only in the notification. -/
theorem irisInsertRows_ok (m : IrisTableModel) (row count : Int) (hconn : m.conn = [])
    (h0 : 0 ≤ row) (h1 : row ≤ (m._cached_row_count : Int)) (hc : 1 ≤ count) :
    m.insertRows row count =
      (true,
       { m with
         iris := m.iris ++ (List.range count.toNat).map (fun t : Nat => irisDefaultRow (irisNextId m.iris + (t : Int))),
         _cached_row_count := m.iris.length + count.toNat },
       [Sig.beginInsertRows row (row + count - 1), Sig.endInsertRows]) := by
  unfold IrisTableModel.insertRows
  rw [if_neg (by omega), if_neg (by omega), exec_nil hconn]
  simp only [Bool.false_eq_true, if_false]
  rw [irisInsertLoop_nil count.toNat m (irisNextId m.iris) 0 hconn]
  simp only [getRowCountQ_nil, hconn]
  have hmap : (List.range count.toNat).map
        (fun t => irisDefaultRow (irisNextId m.iris + ((0 + t : Nat) : Int)))
      = (List.range count.toNat).map (fun t : Nat => irisDefaultRow (irisNextId m.iris + (t : Int))) := by
    apply List.map_congr_left
    intro t _
    congr 1
    omega
  rw [hmap]
  simp [List.length_append, List.length_map, List.length_range]

/-- `removeRows` on a healthy connection with valid arguments: it resolves
the block to ids first, deletes exactly those rows and refreshes the cached
count. -/
theorem irisRemoveRows_ok (m : IrisTableModel) (row count : Int) (hconn : m.conn = [])
    (hcache : m._cached_row_count = m.iris.length) (h0 : 0 ≤ row) (hc : 1 ≤ count)
    (h1 : row + count ≤ (m._cached_row_count : Int)) :
    m.removeRows row count =
      (true,
       { m with
         iris := irisRemaining m row.toNat count.toNat,
         _cached_row_count := (irisRemaining m row.toNat count.toNat).length },
       [Sig.beginRemoveRows row (row + count - 1), Sig.endRemoveRows]) := by
  have hb : row.toNat + count.toNat ≤ m.sortedRows.length := by
    rw [sortedRows_length, ← hcache]
    omega
  unfold IrisTableModel.removeRows
  rw [if_neg (by omega), if_neg (by omega), if_neg (by omega)]
  have hpos : (List.range count.toNat).map (fun i => row.toNat + i) =
      List.range' row.toNat count.toNat := by
    rw [List.range'_eq_map_range]
  rw [hpos, irisResolveIds_nil hconn count.toNat row.toNat [] hb]
  simp only [List.nil_append]
  rw [irisDeleteIds_nil _ m hconn]
  simp only [getRowCountQ_nil, hconn]
  simp [irisRemaining]

/-- Filtering away a block of ids from a partition with pairwise distinct
ids keeps exactly the outer segments. -/
theorem filter_id_block (A B C : List IrisRow)
    (hnd : ((A ++ (B ++ C)).map (fun r => r.id)).Nodup) :
    (A ++ (B ++ C)).filter
        (fun r => (B.map (fun x => x.id)).all (fun idv => r.id != idv)) = A ++ C := by
  rw [List.map_append, List.map_append, List.nodup_append] at hnd
  obtain ⟨-, hBC, hAdis⟩ := hnd
  rw [List.nodup_append] at hBC
  obtain ⟨-, -, hBdisC⟩ := hBC
  rw [List.filter_append, List.filter_append]
  have hBnil : B.filter
      (fun r => (B.map (fun x => x.id)).all (fun idv => r.id != idv)) = [] := by
    rw [List.filter_eq_nil_iff]
    intro b hbB
    have hfalse : (B.map (fun x => x.id)).all (fun idv => b.id != idv) = false :=
      List.all_eq_false.mpr ⟨b.id, List.mem_map_of_mem _ hbB, by simp⟩
    simp [hfalse]
  have hAkeep : A.filter
      (fun r => (B.map (fun x => x.id)).all (fun idv => r.id != idv)) = A := by
    rw [List.filter_eq_self]
    intro a haA
    rw [List.all_eq_true]
    intro idv hidv
    have hnotB : a.id ∉ B.map (fun x => x.id) := fun hmem =>
      hAdis (List.mem_map_of_mem _ haA) (List.mem_append_left _ hmem)
    simp only [bne_iff_ne]
    intro hEq
    exact hnotB (hEq ▸ hidv)
  have hCkeep : C.filter
      (fun r => (B.map (fun x => x.id)).all (fun idv => r.id != idv)) = C := by
    rw [List.filter_eq_self]
    intro c hcC
    rw [List.all_eq_true]
    intro idv hidv
    have hnotB : c.id ∉ B.map (fun x => x.id) := fun hmem =>
      hBdisC hmem (List.mem_map_of_mem _ hcC)
    simp only [bne_iff_ne]
    intro hEq
    exact hnotB (hEq ▸ hidv)
  rw [hAkeep, hBnil, hCkeep, List.nil_append]

/-- With pairwise distinct ids, a healthy `removeRows` keeps, up to the
order of the backing store, exactly the sorted view with the block
`[row, row+count)` removed. -/
theorem irisRemaining_perm (m : IrisTableModel) (row count : Nat)
    (hnodup : (m.iris.map (fun r => r.id)).Nodup) :
    (irisRemaining m row count).Perm
      (m.sortedRows.take row ++ m.sortedRows.drop (row + count)) := by
  have hsplit : m.sortedRows.take row ++
      ((m.sortedRows.drop row).take count ++ (m.sortedRows.drop row).drop count) =
      m.sortedRows := by
    rw [List.take_append_drop, List.take_append_drop]
  have hSnodup : (m.sortedRows.map (fun r => r.id)).Nodup :=
    (((sortedRows_perm m).map (fun r => r.id)).symm).nodup hnodup
  have hperm1 : (irisRemaining m row count).Perm
      (m.sortedRows.filter (fun r =>
        (((m.sortedRows.drop row).take count).map (fun x => x.id)).all
          (fun idv => r.id != idv))) :=
    List.Perm.filter _ (sortedRows_perm m).symm
  rw [← hsplit] at hSnodup
  have hfilter := filter_id_block (m.sortedRows.take row)
    ((m.sortedRows.drop row).take count) ((m.sortedRows.drop row).drop count) hSnodup
  rw [hsplit] at hfilter
  rw [hfilter, List.drop_drop] at hperm1
  exact hperm1

/-- `PostgresTableModel.removeRows` with valid arguments keeps exactly the
rows outside the block `[row, row+count)`. -/
theorem pgRemoveRows_ok (m : PostgresTableModel) (row count : Int)
    (h0 : 0 ≤ row) (hlt : row < (m._df.length : Int)) (hc : 1 ≤ count)
    (h1 : row + count ≤ (m._df.length : Int)) :
    m.removeRows row count =
      (true,
       { m with _df := m._df.take row.toNat ++ m._df.drop (row.toNat + count.toNat) },
       [Sig.beginRemoveRows row (row + count - 1), Sig.endRemoveRows]) := by
  unfold PostgresTableModel.removeRows
  rw [if_neg (by omega), if_neg (by omega)]
  have hidx : eraseIdxTimes (List.range m._df.length) row.toNat count.toNat
      = (List.range m._df.length).take row.toNat ++
        (List.range m._df.length).drop (row.toNat + count.toNat) := by
    apply eraseIdxTimes_eq_take_drop
    simp only [List.length_range]
    omega
  rw [hidx]
  have hA : (List.range m._df.length).take row.toNat = List.range' 0 row.toNat := by
    rw [List.take_range, List.range_eq_range']
    congr 1
    omega
  have hB : (List.range m._df.length).drop (row.toNat + count.toNat)
      = List.range' (row.toNat + count.toNat)
          (m._df.length - (row.toNat + count.toNat)) := by
    rw [List.range_eq_range', range'_drop]
    congr 1
    omega
  rw [hA, hB]
  simp only [List.filterMap_append,
    filterMap_getElem_range' m._df row.toNat 0 (by omega),
    filterMap_getElem_range' m._df (m._df.length - (row.toNat + count.toNat))
      (row.toNat + count.toNat) (by omega),
    List.drop_zero]
  have hlen : m._df.length - (row.toNat + count.toNat)
      = (m._df.drop (row.toNat + count.toNat)).length := by
    simp [List.length_drop]
  rw [hlen, List.take_length]

/-- `List.all` only depends on the multiset of elements. -/
theorem perm_all_eq {α : Type} {l l2 : List α} (h : l.Perm l2) (p : α → Bool) :
    l.all p = l2.all p := by
  cases hb : l2.all p
  · rw [List.all_eq_false] at hb ⊢
    obtain ⟨x, hx, hpx⟩ := hb
    exact ⟨x, h.mem_iff.mpr hx, hpx⟩
  · rw [List.all_eq_true] at hb ⊢
    intro x hx
    exact hb x (h.mem_iff.mp hx)

/-- The fallback decision of `PythonTableModel.sort` is permutation
invariant, so sorting twice sorts with the same key and the physical sort
is idempotent. -/
theorem pySortData_idem (rows : List (List PyVal)) (c : Nat) (rev : Bool) :
    pySortData (pySortData rows c rev) c rev = pySortData rows c rev := by
  by_cases h13 : c = 1 ∨ c = 3
  · by_cases hall : rows.all (fun r => (pyFloat (rowGet r c)).isSome) = true
    · have hall2 : (rows.mergeSort (revOrd (rowFloatLe c) rev)).all
          (fun r => (pyFloat (rowGet r c)).isSome) = true := by
        rw [perm_all_eq (List.mergeSort_perm _ _)]
        exact hall
      have hinner : pySortData rows c rev = rows.mergeSort (revOrd (rowFloatLe c) rev) := by
        unfold pySortData
        rw [if_pos h13, if_pos hall]
      rw [hinner]
      unfold pySortData
      rw [if_pos h13, if_pos hall2]
      exact mergeSort_idem _ (revOrd_trans _ (rowFloatLe_trans c) rev)
        (revOrd_total _ (rowFloatLe_total c) rev) rows
    · have hall2 : ¬ (rows.mergeSort (revOrd (rowStrLe c) rev)).all
          (fun r => (pyFloat (rowGet r c)).isSome) = true := by
        rw [perm_all_eq (List.mergeSort_perm _ _)]
        exact hall
      have hinner : pySortData rows c rev = rows.mergeSort (revOrd (rowStrLe c) rev) := by
        unfold pySortData
        rw [if_pos h13, if_neg hall]
      rw [hinner]
      unfold pySortData
      rw [if_pos h13, if_neg hall2]
      exact mergeSort_idem _ (revOrd_trans _ (rowStrLe_trans c) rev)
        (revOrd_total _ (rowStrLe_total c) rev) rows
  · have hinner : pySortData rows c rev = rows.mergeSort (revOrd (rowStrLe c) rev) := by
      unfold pySortData
      rw [if_neg h13]
    rw [hinner]
    unfold pySortData
    rw [if_neg h13]
    exact mergeSort_idem _ (revOrd_trans _ (rowStrLe_trans c) rev)
      (revOrd_total _ (rowStrLe_total c) rev) rows

/-! ### Claim theorems -/

/-- C1: for every adapter, `setCellValue` (`setData`) with a row outside
`[0, rowCount)` or a column outside `[0, columnCount)` returns `False`, and
with in bounds indices but a raw value the column's implied type coercion
rejects (int for Age, float for Score and the numeric iris columns, the
dtype driven coercion for the data frame) it also returns `False`; in every
such rejection the state is returned unchanged, no notification is emitted,
and nothing is raised to the caller (the iris result is an `Except.ok`, and
the other two adapters' `setData` are total functions of the state). -/
theorem C1_setData_rejections :
    (∀ (m : PythonTableModel) (row col : Int) (v : PyVal) (role : Role),
        ¬ (0 ≤ row ∧ row < (m.rowCount : Int) ∧ 0 ≤ col ∧ col < (m.columnCount : Int)) →
        m.setData row col v role = (false, m, [])) ∧
    (∀ (m : PythonTableModel) (row col : Int) (v : PyVal) (role : Role),
        pyCoerce col v = none → m.setData row col v role = (false, m, [])) ∧
    (∀ (m : IrisTableModel) (row col : Int) (v : PyVal) (role : Role),
        ¬ (0 ≤ row ∧ row < (m.rowCount : Int) ∧ 0 ≤ col ∧ col < (m.columnCount : Int)) →
        m.setData row col v role = .ok (false, m, [])) ∧
    (∀ (m : IrisTableModel) (row col : Int) (v : PyVal) (role : Role),
        m.conn = [] → m._cached_row_count = m.iris.length →
        irisCoerce col v = none → m.setData row col v role = .ok (false, m, [])) ∧
    (∀ (m : PostgresTableModel) (row col : Int) (v : PyVal) (role : Role),
        ¬ (0 ≤ row ∧ row < (m.rowCount : Int) ∧ 0 ≤ col ∧ col < (m.columnCount : Int)) →
        m.setData row col v role = (false, m, [])) ∧
    (∀ (m : PostgresTableModel) (row col : Int) (v : PyVal) (role : Role),
        pgCoerce (m.schema.getD col.toNat ("", .tstr)).2 v = none →
        m.setData row col v role = (false, m, [])) := by
  refine ⟨?_, ?_, ?_, ?_, ?_, ?_⟩
  · intro m row col v role h
    simp only [PythonTableModel.rowCount, PythonTableModel.columnCount] at h
    unfold PythonTableModel.setData
    split_ifs with h1 h2 h3 h4 <;>
      first
        | rfl
        | exact absurd ⟨by omega, by omega, by omega, by omega⟩ h
  · intro m row col v role h
    unfold PythonTableModel.setData
    split_ifs <;> first | rfl | simp only [h]
  · intro m row col v role h
    simp only [IrisTableModel.rowCount, IrisTableModel.columnCount] at h
    unfold IrisTableModel.setData
    split_ifs with h1 h2 h3 h4 <;>
      first
        | rfl
        | exact absurd ⟨by omega, by omega, by omega, by omega⟩ h
  · intro m row col v role hconn hcache h
    unfold IrisTableModel.setData
    split_ifs with h1 h2 h3 h4 <;>
      first
        | rfl
        | (rw [getRowByPosition_nil hconn]
           have hlt : row.toNat < m.sortedRows.length := by
             rw [sortedRows_length, ← hcache]
             omega
           rw [List.getElem?_eq_getElem hlt]
           simp [h])
  · intro m row col v role h
    simp only [PostgresTableModel.rowCount, PostgresTableModel.columnCount] at h
    unfold PostgresTableModel.setData
    split_ifs with h1 h2 h3 h4 <;>
      first
        | rfl
        | exact absurd ⟨by omega, by omega, by omega, by omega⟩ h
  · intro m row col v role h
    unfold PostgresTableModel.setData
    split_ifs <;> first | rfl | simp only [h]

/-- Witness for C1: each rejection case of each adapter exercised on the
concrete fixtures. -/
theorem C1_witness :
    pyInit.setData 99 0 (.pstr "x") .edit = (false, pyInit, []) ∧
    pyInit.setData 0 1 (.pstr "thirty") .edit = (false, pyInit, []) ∧
    irisEx.setData (-1) 0 (.pstr "x") .edit = .ok (false, irisEx, []) ∧
    irisEx.setData 0 0 (.pstr "thirty") .edit = .ok (false, irisEx, []) ∧
    pgEx.setData 5 0 (.pstr "x") .edit = (false, pgEx, []) ∧
    pgEx.setData 0 1 (.pstr "thirty") .edit = (false, pgEx, []) :=
  ⟨C1_setData_rejections.1 pyInit 99 0 _ _ (by decide),
   C1_setData_rejections.2.1 pyInit 0 1 _ _ (by decide),
   C1_setData_rejections.2.2.1 irisEx (-1) 0 _ _ (by decide),
   C1_setData_rejections.2.2.2.1 irisEx 0 0 _ _ rfl rfl (by decide),
   C1_setData_rejections.2.2.2.2.1 pgEx 5 0 _ _ (by decide),
   C1_setData_rejections.2.2.2.2.2 pgEx 0 1 _ _ (by decide)⟩

/-- C2: for every adapter, `insertRows(row, count)` returns `False` with no
mutation when `row < 0`, `row > rowCount()` or `count < 1`, and
`removeRows(row, count)` returns `False` with no mutation when `row < 0`,
`row ≥ rowCount()`, `count < 1` or `row + count > rowCount()`; in every
rejected call the returned state — and with it `rowCount()` — is exactly
the old one and no notification is emitted. -/
theorem C2_insert_remove_rejections :
    (∀ (m : PythonTableModel) (row count : Int),
        row < 0 ∨ (m.rowCount : Int) < row ∨ count < 1 →
        m.insertRows row count = (false, m, [])) ∧
    (∀ (m : PythonTableModel) (row count : Int),
        row < 0 ∨ (m.rowCount : Int) ≤ row ∨ count < 1 ∨ (m.rowCount : Int) < row + count →
        m.removeRows row count = (false, m, [])) ∧
    (∀ (m : IrisTableModel) (row count : Int),
        row < 0 ∨ (m.rowCount : Int) < row ∨ count < 1 →
        m.insertRows row count = (false, m, [])) ∧
    (∀ (m : IrisTableModel) (row count : Int),
        row < 0 ∨ (m.rowCount : Int) ≤ row ∨ count < 1 ∨ (m.rowCount : Int) < row + count →
        m.removeRows row count = (false, m, [])) ∧
    (∀ (m : PostgresTableModel) (row count : Int),
        row < 0 ∨ (m.rowCount : Int) < row ∨ count < 1 →
        m.insertRows row count = (false, m, [])) ∧
    (∀ (m : PostgresTableModel) (row count : Int),
        row < 0 ∨ (m.rowCount : Int) ≤ row ∨ count < 1 ∨ (m.rowCount : Int) < row + count →
        m.removeRows row count = (false, m, [])) := by
  refine ⟨?_, ?_, ?_, ?_, ?_, ?_⟩
  · intro m row count h
    simp only [PythonTableModel.rowCount] at h
    unfold PythonTableModel.insertRows
    split_ifs <;> first | rfl | (exfalso; omega)
  · intro m row count h
    simp only [PythonTableModel.rowCount] at h
    unfold PythonTableModel.removeRows
    split_ifs <;> first | rfl | (exfalso; omega)
  · intro m row count h
    simp only [IrisTableModel.rowCount] at h
    unfold IrisTableModel.insertRows
    split_ifs <;> first | rfl | (exfalso; omega)
  · intro m row count h
    simp only [IrisTableModel.rowCount] at h
    unfold IrisTableModel.removeRows
    split_ifs <;> first | rfl | (exfalso; omega)
  · intro m row count h
    simp only [PostgresTableModel.rowCount] at h
    unfold PostgresTableModel.insertRows
    split_ifs <;> first | rfl | (exfalso; omega)
  · intro m row count h
    simp only [PostgresTableModel.rowCount] at h
    unfold PostgresTableModel.removeRows
    split_ifs <;> first | rfl | (exfalso; omega)

/-- Witness for C2: one rejected insertion and one rejected removal per
adapter on the concrete fixtures. -/
theorem C2_witness :
    pyInit.insertRows (-1) 1 = (false, pyInit, []) ∧
    pyInit.removeRows 0 0 = (false, pyInit, []) ∧
    irisEx.insertRows 4 1 = (false, irisEx, []) ∧
    irisEx.removeRows 2 5 = (false, irisEx, []) ∧
    pgEx.insertRows 0 0 = (false, pgEx, []) ∧
    pgEx.removeRows 2 1 = (false, pgEx, []) :=
  ⟨C2_insert_remove_rejections.1 pyInit (-1) 1 (by decide),
   C2_insert_remove_rejections.2.1 pyInit 0 0 (by decide),
   C2_insert_remove_rejections.2.2.1 irisEx 4 1 (by decide),
   C2_insert_remove_rejections.2.2.2.1 irisEx 2 5 (by decide),
   C2_insert_remove_rejections.2.2.2.2.1 pgEx 0 0 (by decide),
   C2_insert_remove_rejections.2.2.2.2.2 pgEx 2 1 (by decide)⟩

/-- C3: for every adapter, a successful `insertRows(r, n)` leaves
`rowCount()` at the prior count plus `n`, and a successful
`removeRows(r, n)` leaves it at the prior count minus `n` (for the
database backed adapter under its representation invariants: a healthy
connection, a cached count equal to the table size and — for removal —
pairwise distinct primary keys). -/
theorem C3_rowCount_after_success :
    (∀ (m : PythonTableModel) (row count : Int) (m2 : PythonTableModel) (sigs : List Sig),
        m.insertRows row count = (true, m2, sigs) →
        (m2.rowCount : Int) = m.rowCount + count) ∧
    (∀ (m : PythonTableModel) (row count : Int) (m2 : PythonTableModel) (sigs : List Sig),
        m.removeRows row count = (true, m2, sigs) →
        (m2.rowCount : Int) = m.rowCount - count) ∧
    (∀ (m : PostgresTableModel) (row count : Int) (m2 : PostgresTableModel) (sigs : List Sig),
        m.insertRows row count = (true, m2, sigs) →
        (m2.rowCount : Int) = m.rowCount + count) ∧
    (∀ (m : PostgresTableModel) (row count : Int) (m2 : PostgresTableModel) (sigs : List Sig),
        m.removeRows row count = (true, m2, sigs) →
        (m2.rowCount : Int) = m.rowCount - count) ∧
    (∀ (m : IrisTableModel) (row count : Int) (m2 : IrisTableModel) (sigs : List Sig),
        m.conn = [] → m._cached_row_count = m.iris.length →
        m.insertRows row count = (true, m2, sigs) →
        (m2.rowCount : Int) = m.rowCount + count) ∧
    (∀ (m : IrisTableModel) (row count : Int) (m2 : IrisTableModel) (sigs : List Sig),
        m.conn = [] → m._cached_row_count = m.iris.length →
        (m.iris.map (fun r => r.id)).Nodup →
        m.removeRows row count = (true, m2, sigs) →
        (m2.rowCount : Int) = m.rowCount - count) := by
  refine ⟨?_, ?_, ?_, ?_, ?_, ?_⟩
  · intro m row count m2 sigs h
    unfold PythonTableModel.insertRows at h
    split_ifs at h with h1 h2
    · simp at h
    · simp at h
    · injection h with ha hb
      injection hb with hb1 hb2
      subst hb1
      simp only [PythonTableModel.rowCount]
      rw [pyInsertLoop_length count.toNat m._data row.toNat 0 (by omega)]
      omega
  · intro m row count m2 sigs h
    unfold PythonTableModel.removeRows at h
    split_ifs at h with h1 h2 h3
    · simp at h
    · simp at h
    · simp at h
    · injection h with ha hb
      injection hb with hb1 hb2
      subst hb1
      simp only [PythonTableModel.rowCount]
      rw [eraseIdxTimes_length count.toNat m._data row.toNat (by omega)]
      omega
  · intro m row count m2 sigs h
    unfold PostgresTableModel.insertRows at h
    split_ifs at h with h1 h2 h3 <;> simp at h <;>
      (obtain ⟨hm, -⟩ := h
       rw [← hm]
       simp only [PostgresTableModel.rowCount, List.length_append, List.length_replicate,
         List.length_take, List.length_drop]
       omega)
  · intro m row count m2 sigs h
    have hv1 : ¬ (row < 0 ∨ (m._df.length : Int) ≤ row ∨ count < 1) := by
      intro hc
      unfold PostgresTableModel.removeRows at h
      rw [if_pos hc] at h
      simp at h
    have hv2 : ¬ ((m._df.length : Int) < row + count) := by
      intro hc
      unfold PostgresTableModel.removeRows at h
      rw [if_neg hv1, if_pos hc] at h
      simp at h
    rw [pgRemoveRows_ok m row count (by omega) (by omega) (by omega) (by omega)] at h
    injection h with ha hb
    injection hb with hb1 hb2
    subst hb1
    simp only [PostgresTableModel.rowCount]
    simp only [List.length_append, List.length_take, List.length_drop]
    omega
  · intro m row count m2 sigs hconn hcache h
    have hv1 : ¬ (row < 0 ∨ (m._cached_row_count : Int) < row) := by
      intro hc
      unfold IrisTableModel.insertRows at h
      rw [if_pos hc] at h
      simp at h
    have hv2 : ¬ (count < 1) := by
      intro hc
      unfold IrisTableModel.insertRows at h
      rw [if_neg hv1, if_pos hc] at h
      simp at h
    rw [irisInsertRows_ok m row count hconn (by omega) (by omega) (by omega)] at h
    injection h with ha hb
    injection hb with hb1 hb2
    subst hb1
    simp only [IrisTableModel.rowCount]
    omega
  · intro m row count m2 sigs hconn hcache hnodup h
    have hv1 : ¬ (row < 0 ∨ (m._cached_row_count : Int) ≤ row) := by
      intro hc
      unfold IrisTableModel.removeRows at h
      rw [if_pos hc] at h
      simp at h
    have hv2 : ¬ (count < 1) := by
      intro hc
      unfold IrisTableModel.removeRows at h
      rw [if_neg hv1, if_pos hc] at h
      simp at h
    have hv3 : ¬ ((m._cached_row_count : Int) < row + count) := by
      intro hc
      unfold IrisTableModel.removeRows at h
      rw [if_neg hv1, if_neg hv2, if_pos hc] at h
      simp at h
    rw [irisRemoveRows_ok m row count hconn hcache (by omega) (by omega) (by omega)] at h
    injection h with ha hb
    injection hb with hb1 hb2
    subst hb1
    have hlen := (irisRemaining_perm m row.toNat count.toNat hnodup).length_eq
    simp only [List.length_append, List.length_take, List.length_drop,
      sortedRows_length] at hlen
    simp only [IrisTableModel.rowCount]
    omega

/-- Witness for C3: a successful insertion and removal on every adapter,
with the resulting state given by evaluation. -/
theorem C3_witness :
    (((pyInit.insertRows 0 2).2.1.rowCount : Int) = pyInit.rowCount + 2) ∧
    (((pyInit.removeRows 1 3).2.1.rowCount : Int) = pyInit.rowCount - 3) ∧
    (((pgEx.insertRows 1 2).2.1.rowCount : Int) = pgEx.rowCount + 2) ∧
    (((pgEx.removeRows 0 1).2.1.rowCount : Int) = pgEx.rowCount - 1) ∧
    (((irisEx.insertRows 3 2).2.1.rowCount : Int) = irisEx.rowCount + 2) ∧
    (((irisEx.removeRows 1 2).2.1.rowCount : Int) = irisEx.rowCount - 2) :=
  ⟨C3_rowCount_after_success.1 pyInit 0 2 (pyInit.insertRows 0 2).2.1
     (pyInit.insertRows 0 2).2.2 (by decide),
   C3_rowCount_after_success.2.1 pyInit 1 3 (pyInit.removeRows 1 3).2.1
     (pyInit.removeRows 1 3).2.2 (by decide),
   C3_rowCount_after_success.2.2.1 pgEx 1 2 (pgEx.insertRows 1 2).2.1
     (pgEx.insertRows 1 2).2.2 (by decide),
   C3_rowCount_after_success.2.2.2.1 pgEx 0 1 (pgEx.removeRows 0 1).2.1
     (pgEx.removeRows 0 1).2.2 (by decide),
   C3_rowCount_after_success.2.2.2.2.1 irisEx 3 2 (irisEx.insertRows 3 2).2.1
     (irisEx.insertRows 3 2).2.2 rfl rfl (by decide),
   C3_rowCount_after_success.2.2.2.2.2 irisEx 1 2 (irisEx.removeRows 1 2).2.1
     (irisEx.removeRows 1 2).2.2 rfl rfl (by decide) (by decide)⟩

unseal List.merge List.mergeSort in
/-- C4: for every adapter, a successful `removeRows(row, count)` deletes
exactly the rows occupying positions `[row, row+count)` under the order
active at call time: the list backed and data frame backed adapters keep
exactly `take row ++ drop (row+count)` of the physically ordered rows, and
the database backed adapter (which resolves the positions to primary keys
before any deletion executes) keeps exactly a permutation of its sorted
view with that block removed; concretely, with the ten seed rows sorted
descending by the Score column, `removeRows(0, 2)` removes the two
currently highest scoring rows (Alice 95.5 and Grace 94.2) and `rowCount()`
becomes 8. -/
theorem C4_remove_deletes_block :
    (∀ (m : PythonTableModel) (row count : Int) (m2 : PythonTableModel) (sigs : List Sig),
        m.removeRows row count = (true, m2, sigs) →
        m2._data = m._data.take row.toNat ++ m._data.drop (row.toNat + count.toNat)) ∧
    (∀ (m : PostgresTableModel) (row count : Int) (m2 : PostgresTableModel) (sigs : List Sig),
        m.removeRows row count = (true, m2, sigs) →
        m2._df = m._df.take row.toNat ++ m._df.drop (row.toNat + count.toNat)) ∧
    (∀ (m : IrisTableModel) (row count : Int) (m2 : IrisTableModel) (sigs : List Sig),
        m.conn = [] → m._cached_row_count = m.iris.length →
        (m.iris.map (fun r => r.id)).Nodup →
        m.removeRows row count = (true, m2, sigs) →
        m2.iris.Perm
          (m.sortedRows.take row.toNat ++ m.sortedRows.drop (row.toNat + count.toNat))) ∧
    (((pyInit.sort 3 .desc).1.removeRows 0 2).1 = true ∧
     ((pyInit.sort 3 .desc).1.removeRows 0 2).2.1.rowCount = 8 ∧
     ((pyInit.sort 3 .desc).1.removeRows 0 2).2.1._data.map (fun r => pyStr (rowGet r 0)) =
       ["Ivy", "Charlie", "Eve", "Henry", "Diana", "Bob", "Jack", "Frank"]) := by
  refine ⟨?_, ?_, ?_, by decide, by decide, by decide⟩
  · intro m row count m2 sigs h
    unfold PythonTableModel.removeRows at h
    split_ifs at h with h1 h2 h3
    · simp at h
    · simp at h
    · simp at h
    · injection h with ha hb
      injection hb with hb1 hb2
      subst hb1
      exact eraseIdxTimes_eq_take_drop count.toNat m._data row.toNat (by omega)
  · intro m row count m2 sigs h
    have hv1 : ¬ (row < 0 ∨ (m._df.length : Int) ≤ row ∨ count < 1) := by
      intro hc
      unfold PostgresTableModel.removeRows at h
      rw [if_pos hc] at h
      simp at h
    have hv2 : ¬ ((m._df.length : Int) < row + count) := by
      intro hc
      unfold PostgresTableModel.removeRows at h
      rw [if_neg hv1, if_pos hc] at h
      simp at h
    rw [pgRemoveRows_ok m row count (by omega) (by omega) (by omega) (by omega)] at h
    injection h with ha hb
    injection hb with hb1 hb2
    subst hb1
    rfl
  · intro m row count m2 sigs hconn hcache hnodup h
    have hv1 : ¬ (row < 0 ∨ (m._cached_row_count : Int) ≤ row) := by
      intro hc
      unfold IrisTableModel.removeRows at h
      rw [if_pos hc] at h
      simp at h
    have hv2 : ¬ (count < 1) := by
      intro hc
      unfold IrisTableModel.removeRows at h
      rw [if_neg hv1, if_pos hc] at h
      simp at h
    have hv3 : ¬ ((m._cached_row_count : Int) < row + count) := by
      intro hc
      unfold IrisTableModel.removeRows at h
      rw [if_neg hv1, if_neg hv2, if_pos hc] at h
      simp at h
    rw [irisRemoveRows_ok m row count hconn hcache (by omega) (by omega) (by omega)] at h
    injection h with ha hb
    injection hb with hb1 hb2
    subst hb1
    exact irisRemaining_perm m row.toNat count.toNat hnodup

/-- Witness for C4: a successful removal on each adapter at concrete
inputs. -/
theorem C4_witness :
    ((pyInit.removeRows 2 3).2.1._data =
      pyInit._data.take 2 ++ pyInit._data.drop 5) ∧
    ((pgEx.removeRows 0 1).2.1._df = pgEx._df.take 0 ++ pgEx._df.drop 1) ∧
    ((irisEx.removeRows 1 2).2.1.iris.Perm
      (irisEx.sortedRows.take 1 ++ irisEx.sortedRows.drop 3)) :=
  ⟨C4_remove_deletes_block.1 pyInit 2 3 (pyInit.removeRows 2 3).2.1
     (pyInit.removeRows 2 3).2.2 (by decide),
   C4_remove_deletes_block.2.1 pgEx 0 1 (pgEx.removeRows 0 1).2.1
     (pgEx.removeRows 0 1).2.2 (by decide),
   C4_remove_deletes_block.2.2.1 irisEx 1 2 (irisEx.removeRows 1 2).2.1
     (irisEx.removeRows 1 2).2.2 rfl rfl (by decide) (by decide)⟩

/-- C7: for every adapter and every column and direction, sorting twice in
succession yields exactly the same model state as sorting once (for out of
range columns both calls are no-ops), hence the same observable row order
through every subsequent read. -/
theorem C7_sort_idempotent :
    (∀ (m : PythonTableModel) (c : Int) (d : SortOrder),
        ((m.sort c d).1.sort c d).1 = (m.sort c d).1) ∧
    (∀ (m : IrisTableModel) (c : Int) (d : SortOrder),
        ((m.sort c d).1.sort c d).1 = (m.sort c d).1) ∧
    (∀ (m : PostgresTableModel) (c : Int) (d : SortOrder),
        ((m.sort c d).1.sort c d).1 = (m.sort c d).1) := by
  refine ⟨?_, ?_, ?_⟩
  · intro m c d
    by_cases hb : c < 0 ∨ (m._columns.length : Int) ≤ c
    · have hin : m.sort c d = (m, []) := by
        unfold PythonTableModel.sort
        rw [if_pos hb]
      simp only [hin]
    · have hin : m.sort c d =
          ({ m with
             _sort_column := c
             _sort_order := d
             _data := pySortData m._data c.toNat d.isDesc },
           [Sig.layoutAboutToBeChanged, Sig.layoutChanged]) := by
        unfold PythonTableModel.sort
        rw [if_neg hb]
      have hin2 : ({ m with
          _sort_column := c
          _sort_order := d
          _data := pySortData m._data c.toNat d.isDesc } : PythonTableModel).sort c d =
          ({ m with
             _sort_column := c
             _sort_order := d
             _data := pySortData m._data c.toNat d.isDesc },
           [Sig.layoutAboutToBeChanged, Sig.layoutChanged]) := by
        unfold PythonTableModel.sort
        rw [if_neg hb, pySortData_idem]
      simp only [hin, hin2]
  · intro m c d
    by_cases hb : c < 0 ∨ (irisColumns.length : Int) ≤ c
    · have hin : m.sort c d = (m, []) := by
        unfold IrisTableModel.sort
        rw [if_pos hb]
      simp only [hin]
    · have hin : m.sort c d =
          ({ m with _sort_column := c, _sort_order := d },
           [Sig.layoutAboutToBeChanged, Sig.layoutChanged]) := by
        unfold IrisTableModel.sort
        rw [if_neg hb]
      have hin2 : ({ m with _sort_column := c, _sort_order := d } : IrisTableModel).sort c d =
          ({ m with _sort_column := c, _sort_order := d },
           [Sig.layoutAboutToBeChanged, Sig.layoutChanged]) := by
        unfold IrisTableModel.sort
        rw [if_neg hb]
      simp only [hin, hin2]
  · intro m c d
    by_cases hb : c < 0 ∨ (m.schema.length : Int) ≤ c
    · have hin : m.sort c d = (m, []) := by
        unfold PostgresTableModel.sort
        rw [if_pos hb]
      simp only [hin]
    · have hin : m.sort c d =
          ({ m with
             _sort_column := c
             _sort_order := d
             _df := m._df.mergeSort (revOrd (pgColLe c.toNat) d.isDesc) },
           [Sig.layoutAboutToBeChanged, Sig.layoutChanged]) := by
        unfold PostgresTableModel.sort
        rw [if_neg hb]
      have hin2 : ({ m with
          _sort_column := c
          _sort_order := d
          _df := m._df.mergeSort (revOrd (pgColLe c.toNat) d.isDesc) } : PostgresTableModel).sort c d =
          ({ m with
             _sort_column := c
             _sort_order := d
             _df := m._df.mergeSort (revOrd (pgColLe c.toNat) d.isDesc) },
           [Sig.layoutAboutToBeChanged, Sig.layoutChanged]) := by
        unfold PostgresTableModel.sort
        rw [if_neg hb, mergeSort_idem _ (revOrd_trans _ (pgColLe_trans c.toNat) _)
          (revOrd_total _ (pgColLe_total c.toNat) _)]
      simp only [hin, hin2]

/-- C9: in the list backed model, sorting on column 1 (Age) or column 3
(Score) produces a permutation of the rows that is ordered by the numeric
key `float(row[column])` whenever every cell of the column parses as a
float, and ordered by the lexicographic key `str(row[column])` whenever
some cell does not parse; either way the output is sorted under one total
key order. -/
theorem C9_numeric_sort_with_fallback :
    ∀ (m : PythonTableModel) (c : Int) (d : SortOrder), (c = 1 ∨ c = 3) →
      (m._columns.length : Int) = 5 →
      (((m.sort c d).1._data).Perm m._data ∧
       (m._data.all (fun r => (pyFloat (rowGet r c.toNat)).isSome) = true →
         ((m.sort c d).1._data).Pairwise
           (fun a b => revOrd (rowFloatLe c.toNat) d.isDesc a b = true)) ∧
       (m._data.all (fun r => (pyFloat (rowGet r c.toNat)).isSome) = false →
         ((m.sort c d).1._data).Pairwise
           (fun a b => revOrd (rowStrLe c.toNat) d.isDesc a b = true))) := by
  intro m c d h13 hcols
  have hin : (m.sort c d).1._data = pySortData m._data c.toNat d.isDesc := by
    unfold PythonTableModel.sort
    rw [if_neg (by omega)]
  rw [hin]
  have h13n : c.toNat = 1 ∨ c.toNat = 3 := by omega
  refine ⟨?_, ?_, ?_⟩
  · unfold pySortData
    split_ifs <;> exact List.mergeSort_perm _ _
  · intro hall
    unfold pySortData
    rw [if_pos h13n, if_pos hall]
    exact List.sorted_mergeSort (revOrd_trans _ (rowFloatLe_trans c.toNat) _)
      (revOrd_total _ (rowFloatLe_total c.toNat) _) m._data
  · intro hall
    unfold pySortData
    rw [if_pos h13n, if_neg (by simp [hall])]
    exact List.sorted_mergeSort (revOrd_trans _ (rowStrLe_trans c.toNat) _)
      (revOrd_total _ (rowStrLe_total c.toNat) _) m._data

/-- Witness for C9: the seed data sorted ascending by Age (every Age cell
parses as a float, so the numeric key applies). -/
theorem C9_witness :
    ((pyInit.sort 1 .asc).1._data).Perm pyInit._data ∧
    pyInit._data.all (fun r => (pyFloat (rowGet r 1)).isSome) = true ∧
    ((pyInit.sort 1 .asc).1._data).Pairwise
      (fun a b => revOrd (rowFloatLe 1) false a b = true) :=
  ⟨(C9_numeric_sort_with_fallback pyInit 1 .asc (by decide) (by decide)).1,
   by decide,
   (C9_numeric_sort_with_fallback pyInit 1 .asc (by decide) (by decide)).2.1 (by decide)⟩

/-- C10: in the database backed model (healthy connection, valid
arguments), `insertRows` appends its default rows to the end of the backing
table with the consecutive ids `MAX(id)+1, MAX(id)+2, ...` (every id
strictly above every existing id); the requested position determines only
the notification range `[row, row+count-1]`: the resulting state is the
same for every valid requested position, and with no sort active
(`_sort_column = -1`) the new rows occupy the final visible positions. -/
theorem C10_insert_appends_at_end :
    ∀ (m : IrisTableModel) (row count : Int), m.conn = [] →
      0 ≤ row → row ≤ (m._cached_row_count : Int) → 1 ≤ count →
      ((m.insertRows row count).1 = true ∧
       (m.insertRows row count).2.1.iris =
         m.iris ++ (List.range count.toNat).map
           (fun t : Nat => irisDefaultRow (irisNextId m.iris + (t : Int))) ∧
       (m.insertRows row count).2.2 =
         [Sig.beginInsertRows row (row + count - 1), Sig.endInsertRows] ∧
       (∀ r ∈ m.iris, r.id < irisNextId m.iris) ∧
       (m._sort_column = -1 →
         (m.insertRows row count).2.1.sortedRows =
           m.iris ++ (List.range count.toNat).map
             (fun t : Nat => irisDefaultRow (irisNextId m.iris + (t : Int)))) ∧
       (∀ row2 : Int, 0 ≤ row2 → row2 ≤ (m._cached_row_count : Int) →
         (m.insertRows row2 count).2.1 = (m.insertRows row count).2.1)) := by
  intro m row count hconn h0 h1 hc
  have hok := irisInsertRows_ok m row count hconn h0 h1 hc
  refine ⟨by rw [hok], by rw [hok], by rw [hok], ?_, ?_, ?_⟩
  · intro r hr
    cases hmx : (m.iris.map (fun x => x.id)).max? with
    | none =>
      rw [List.max?_eq_none_iff, List.map_eq_nil_iff] at hmx
      rw [hmx] at hr
      exact absurd hr (List.not_mem_nil r)
    | some mx =>
      have hnid : irisNextId m.iris = mx + 1 := by
        unfold irisNextId
        rw [hmx]
      have hall := (List.max?_le_iff (fun a b c => max_le_iff) hmx).mp (le_refl mx)
      have hle : r.id ≤ mx := hall _ (List.mem_map_of_mem _ hr)
      omega
  · intro hsc
    rw [hok]
    unfold IrisTableModel.sortedRows
    rw [if_neg (by simp [hsc])]
  · intro row2 h02 h12
    rw [hok, irisInsertRows_ok m row2 count hconn h02 h12 hc]

/-- Witness for C10: inserting two rows into the three row fixture at
position 1; the new rows get ids 3 and 4 and end up at the last two
positions. -/
theorem C10_witness :
    ((irisEx.insertRows 1 2).1 = true ∧
     (irisEx.insertRows 1 2).2.1.iris =
       irisEx.iris ++ (List.range 2).map
         (fun t : Nat => irisDefaultRow (irisNextId irisEx.iris + (t : Int))) ∧
     (irisEx.insertRows 1 2).2.2 = [Sig.beginInsertRows 1 2, Sig.endInsertRows] ∧
     (∀ r ∈ irisEx.iris, r.id < irisNextId irisEx.iris) ∧
     (irisEx._sort_column = -1 →
       (irisEx.insertRows 1 2).2.1.sortedRows =
         irisEx.iris ++ (List.range 2).map
           (fun t : Nat => irisDefaultRow (irisNextId irisEx.iris + (t : Int)))) ∧
     (∀ row2 : Int, 0 ≤ row2 → row2 ≤ (irisEx._cached_row_count : Int) →
       (irisEx.insertRows row2 2).2.1 = (irisEx.insertRows 1 2).2.1)) :=
  C10_insert_appends_at_end irisEx 1 2 rfl (by decide) (by decide) (by decide)

theorem exec_snd_iris (m : IrisTableModel) : m.exec.2.iris = m.iris := rfl

theorem exec_snd_cache (m : IrisTableModel) :
    m.exec.2._cached_row_count = m._cached_row_count := rfl

theorem getRowByPosition_state (m : IrisTableModel) (p : Nat) :
    (m.getRowByPosition p).2.iris = m.iris ∧
    (m.getRowByPosition p).2._cached_row_count = m._cached_row_count := by
  unfold IrisTableModel.getRowByPosition
  rcases hx : m.exec with ⟨f, m1⟩
  have h2 : m1 = m.exec.2 := by rw [hx]
  by_cases hf : f = true <;>
    simp [hf, h2, exec_snd_iris, exec_snd_cache]

theorem getRowCountQ_state (m : IrisTableModel) :
    (m.getRowCountQ).2.iris = m.iris ∧
    (m.getRowCountQ).2._cached_row_count = m._cached_row_count := by
  unfold IrisTableModel.getRowCountQ
  rcases hx : m.exec with ⟨f, m1⟩
  have h2 : m1 = m.exec.2 := by rw [hx]
  by_cases hf : f = true <;>
    simp [hf, h2, exec_snd_iris, exec_snd_cache]

theorem irisResolveIds_state :
    ∀ (ps : List Nat) (m : IrisTableModel) (acc : List Int),
      (irisResolveIds m acc ps).2.iris = m.iris ∧
      (irisResolveIds m acc ps).2._cached_row_count = m._cached_row_count
  | [], m, acc => ⟨rfl, rfl⟩
  | p :: ps, m, acc => by
    simp only [irisResolveIds]
    rcases hx : m.getRowByPosition p with ⟨res, m1⟩
    have hstate := getRowByPosition_state m p
    rw [hx] at hstate
    rcases res with e | opt
    · exact hstate
    · rcases opt with _ | r
      · have hrec := irisResolveIds_state ps m1 acc
        exact ⟨hrec.1.trans hstate.1, hrec.2.trans hstate.2⟩
      · have hrec := irisResolveIds_state ps m1 (acc ++ [r.id])
        exact ⟨hrec.1.trans hstate.1, hrec.2.trans hstate.2⟩

theorem irisDeleteIds_partial :
    ∀ (ids : List Int) (m : IrisTableModel),
      ∃ ids2 : List Int,
        (irisDeleteIds m ids).2.iris =
          m.iris.filter (fun r => ids2.all (fun idv => r.id != idv)) ∧
        (irisDeleteIds m ids).2._cached_row_count = m._cached_row_count
  | [], m => ⟨[], by simp [irisDeleteIds]⟩
  | id0 :: rest, m => by
    simp only [irisDeleteIds]
    rcases hx : m.exec with ⟨f, m1⟩
    have h2 : m1 = m.exec.2 := by rw [hx]
    have h1i : m1.iris = m.iris := by rw [h2, exec_snd_iris]
    have h1c : m1._cached_row_count = m._cached_row_count := by rw [h2, exec_snd_cache]
    by_cases hf : f = true
    · subst hf
      refine ⟨[], ?_, ?_⟩ <;> simp [h1i, h1c]
    · simp only [Bool.not_eq_true] at hf
      subst hf
      simp only [Bool.false_eq_true, if_false]
      obtain ⟨ids2, hiris, hcache⟩ :=
        irisDeleteIds_partial rest { m1 with iris := m1.iris.filter (fun r => r.id != id0) }
      have hiris2 : (irisDeleteIds
            { m1 with iris := m1.iris.filter (fun r => r.id != id0) } rest).2.iris
          = (m1.iris.filter (fun r => r.id != id0)).filter
              (fun r => ids2.all (fun idv => r.id != idv)) := hiris
      refine ⟨id0 :: ids2, ?_, ?_⟩
      · rw [hiris2, h1i, List.filter_filter]
        apply List.filter_congr
        intro a _
        simp only [List.all_cons]
        rw [Bool.and_comm]
      · rw [hcache]
        exact h1c

/-- Whatever the injected store outcomes, a validated `insertRows` emits
the begin/end bracket, appends some prefix of the intended default rows,
and does not refresh the cached count unless it returns `True`. -/
theorem irisInsertRows_cases (m : IrisTableModel) (row count : Int)
    (h0 : 0 ≤ row) (h1 : row ≤ (m._cached_row_count : Int)) (hc : 1 ≤ count) :
    ∃ k ≤ count.toNat,
      (m.insertRows row count).2.1.iris = m.iris ++
        (List.range k).map
          (fun t : Nat => irisDefaultRow (irisNextId m.iris + ((0 + t : Nat) : Int))) ∧
      (m.insertRows row count).2.2 =
        [Sig.beginInsertRows row (row + count - 1), Sig.endInsertRows] ∧
      ((m.insertRows row count).1 = false →
        (m.insertRows row count).2.1._cached_row_count = m._cached_row_count) := by
  rcases hx : m.exec with ⟨f0, m0⟩
  have h2 : m0 = m.exec.2 := by rw [hx]
  have h0i : m0.iris = m.iris := by rw [h2, exec_snd_iris]
  have h0c : m0._cached_row_count = m._cached_row_count := by rw [h2, exec_snd_cache]
  by_cases hf0 : f0 = true
  · subst hf0
    have hres : m.insertRows row count =
        (false, m0, [Sig.beginInsertRows row (row + count - 1), Sig.endInsertRows]) := by
      unfold IrisTableModel.insertRows
      rw [if_neg (by omega), if_neg (by omega)]
      simp only [hx, if_true]
    refine ⟨0, by omega, ?_, ?_, fun _ => ?_⟩
    · rw [hres]
      simp [h0i]
    · rw [hres]
    · rw [hres]
      exact h0c
  · simp only [Bool.not_eq_true] at hf0
    subst hf0
    obtain ⟨j, hj, hLi, hLc⟩ := irisInsertLoop_partial count.toNat m0 (irisNextId m0.iris) 0
    rcases hl : irisInsertLoop m0 (irisNextId m0.iris) 0 count.toNat with ⟨fl, mL⟩
    rw [hl] at hLi hLc
    rw [h0i] at hLi
    by_cases hfl : fl = true
    · subst hfl
      have hres : m.insertRows row count =
          (false, mL, [Sig.beginInsertRows row (row + count - 1), Sig.endInsertRows]) := by
        unfold IrisTableModel.insertRows
        rw [if_neg (by omega), if_neg (by omega)]
        simp only [hx, Bool.false_eq_true, if_false, hl]
      refine ⟨j, hj, ?_, ?_, fun _ => ?_⟩
      · rw [hres]
        exact hLi
      · rw [hres]
      · rw [hres]
        exact hLc.trans h0c
    · simp only [Bool.not_eq_true] at hfl
      subst hfl
      have hQ := getRowCountQ_state mL
      rcases hq : mL.getRowCountQ with ⟨res, mQ⟩
      rw [hq] at hQ
      rcases res with e | n
      · have hres : m.insertRows row count =
            (false, mQ, [Sig.beginInsertRows row (row + count - 1), Sig.endInsertRows]) := by
          unfold IrisTableModel.insertRows
          rw [if_neg (by omega), if_neg (by omega)]
          simp only [hx, Bool.false_eq_true, if_false, hl, hq]
        refine ⟨j, hj, ?_, ?_, fun _ => ?_⟩
        · rw [hres]
          exact hQ.1.trans hLi
        · rw [hres]
        · rw [hres]
          exact (hQ.2.trans hLc).trans h0c
      · have hres : m.insertRows row count =
            (true, { mQ with _cached_row_count := n },
             [Sig.beginInsertRows row (row + count - 1), Sig.endInsertRows]) := by
          unfold IrisTableModel.insertRows
          rw [if_neg (by omega), if_neg (by omega)]
          simp only [hx, Bool.false_eq_true, if_false, hl, hq]
        refine ⟨j, hj, ?_, ?_, fun hfalse => ?_⟩
        · rw [hres]
          exact hQ.1.trans hLi
        · rw [hres]
        · rw [hres] at hfalse
          simp at hfalse

/-- Whatever the injected store outcomes, a validated `removeRows` emits
the begin/end bracket, deletes exactly the rows matching some list of
resolved ids, and does not refresh the cached count unless it returns
`True`. -/
theorem irisRemoveRows_cases (m : IrisTableModel) (row count : Int)
    (h0 : 0 ≤ row) (h1 : row < (m._cached_row_count : Int)) (hc : 1 ≤ count)
    (h2 : row + count ≤ (m._cached_row_count : Int)) :
    ∃ ids2 : List Int,
      (m.removeRows row count).2.1.iris =
        m.iris.filter (fun r => ids2.all (fun idv => r.id != idv)) ∧
      (m.removeRows row count).2.2 =
        [Sig.beginRemoveRows row (row + count - 1), Sig.endRemoveRows] ∧
      ((m.removeRows row count).1 = false →
        (m.removeRows row count).2.1._cached_row_count = m._cached_row_count) := by
  have hR := irisResolveIds_state
    ((List.range count.toNat).map (fun i => row.toNat + i)) m []
  rcases hr : irisResolveIds m []
      ((List.range count.toNat).map (fun i => row.toNat + i)) with ⟨res, m1⟩
  rw [hr] at hR
  rcases res with e | ids
  · have hres : m.removeRows row count =
        (false, m1, [Sig.beginRemoveRows row (row + count - 1), Sig.endRemoveRows]) := by
      unfold IrisTableModel.removeRows
      rw [if_neg (by omega), if_neg (by omega), if_neg (by omega)]
      simp only [hr]
    refine ⟨[], ?_, ?_, fun _ => ?_⟩
    · rw [hres]
      have hi : m1.iris = m.iris := hR.1
      simp [hi]
    · rw [hres]
    · rw [hres]
      exact hR.2
  · obtain ⟨ids2, hDi, hDc⟩ := irisDeleteIds_partial ids m1
    rcases hd : irisDeleteIds m1 ids with ⟨dres, m2⟩
    rw [hd] at hDi hDc
    have hR1 : m1.iris = m.iris := hR.1
    rw [hR1] at hDi
    rcases dres with e | u
    · have hres : m.removeRows row count =
          (false, m2, [Sig.beginRemoveRows row (row + count - 1), Sig.endRemoveRows]) := by
        unfold IrisTableModel.removeRows
        rw [if_neg (by omega), if_neg (by omega), if_neg (by omega)]
        simp only [hr, hd]
      refine ⟨ids2, ?_, ?_, fun _ => ?_⟩
      · rw [hres]
        exact hDi
      · rw [hres]
      · rw [hres]
        exact hDc.trans hR.2
    · have hQ := getRowCountQ_state m2
      rcases hq : m2.getRowCountQ with ⟨qres, mQ⟩
      rw [hq] at hQ
      rcases qres with e | n
      · have hres : m.removeRows row count =
            (false, mQ, [Sig.beginRemoveRows row (row + count - 1), Sig.endRemoveRows]) := by
          unfold IrisTableModel.removeRows
          rw [if_neg (by omega), if_neg (by omega), if_neg (by omega)]
          simp only [hr, hd, hq]
        refine ⟨ids2, ?_, ?_, fun _ => ?_⟩
        · rw [hres]
          exact hQ.1.trans hDi
        · rw [hres]
        · rw [hres]
          exact (hQ.2.trans hDc).trans hR.2
      · have hres : m.removeRows row count =
            (true, { mQ with _cached_row_count := n },
             [Sig.beginRemoveRows row (row + count - 1), Sig.endRemoveRows]) := by
          unfold IrisTableModel.removeRows
          rw [if_neg (by omega), if_neg (by omega), if_neg (by omega)]
          simp only [hr, hd, hq]
        refine ⟨ids2, ?_, ?_, fun hfalse => ?_⟩
        · rw [hres]
          exact hQ.1.trans hDi
        · rw [hres]
        · rw [hres] at hfalse
          simp at hfalse

/-- C5 (amended): when the backing store raises during a validated
`insertRows` or `removeRows`, the adapter returns `False`, still emits the
bracketing begin/end notifications, does not refresh the cached row count,
and remains a well defined state for subsequent calls — but mutations
already executed before the failure persist (there is no transaction): the
table keeps some prefix of the new default rows, respectively has the rows
matching some resolved-id list deleted; the state is unchanged only when
the failure precedes the first row mutation. -/
theorem C5_store_failure_behavior :
    (∀ (m : IrisTableModel) (row count : Int),
        0 ≤ row → row ≤ (m._cached_row_count : Int) → 1 ≤ count →
        (m.insertRows row count).1 = false →
        ((m.insertRows row count).2.2 =
            [Sig.beginInsertRows row (row + count - 1), Sig.endInsertRows] ∧
         (m.insertRows row count).2.1._cached_row_count = m._cached_row_count ∧
         ∃ k ≤ count.toNat, (m.insertRows row count).2.1.iris = m.iris ++
            (List.range k).map
              (fun t : Nat => irisDefaultRow (irisNextId m.iris + ((0 + t : Nat) : Int))))) ∧
    (∀ (m : IrisTableModel) (row count : Int),
        0 ≤ row → row < (m._cached_row_count : Int) → 1 ≤ count →
        row + count ≤ (m._cached_row_count : Int) →
        (m.removeRows row count).1 = false →
        ((m.removeRows row count).2.2 =
            [Sig.beginRemoveRows row (row + count - 1), Sig.endRemoveRows] ∧
         (m.removeRows row count).2.1._cached_row_count = m._cached_row_count ∧
         ∃ ids2 : List Int, (m.removeRows row count).2.1.iris =
            m.iris.filter (fun r => ids2.all (fun idv => r.id != idv)))) := by
  constructor
  · intro m row count h0 h1 hc hfail
    obtain ⟨k, hk, hiris, hsigs, hcache⟩ := irisInsertRows_cases m row count h0 h1 hc
    exact ⟨hsigs, hcache hfail, k, hk, hiris⟩
  · intro m row count h0 h1 hc h2 hfail
    obtain ⟨ids2, hiris, hsigs, hcache⟩ := irisRemoveRows_cases m row count h0 h1 hc h2
    exact ⟨hsigs, hcache hfail, ids2, hiris⟩

/-- Witness for C5 (amended): the fixture whose second `INSERT` raises
(`insertRows 3 2` fails after one row is appended), and a removal on a
fixture whose first `DELETE` raises. -/
theorem C5_witness :
    ((irisC5.insertRows 3 2).1 = false ∧
     (irisC5.insertRows 3 2).2.2 = [Sig.beginInsertRows 3 4, Sig.endInsertRows] ∧
     (irisC5.insertRows 3 2).2.1._cached_row_count = irisC5._cached_row_count ∧
     ∃ k ≤ (2 : Int).toNat, (irisC5.insertRows 3 2).2.1.iris = irisC5.iris ++
        (List.range k).map
          (fun t : Nat => irisDefaultRow (irisNextId irisC5.iris + ((0 + t : Nat) : Int)))) ∧
    (({ irisEx with conn := [false, true] } : IrisTableModel).removeRows 0 1).1 = false ∧
    ((({ irisEx with conn := [false, true] } : IrisTableModel).removeRows 0 1).2.2 =
        [Sig.beginRemoveRows 0 0, Sig.endRemoveRows] ∧
     (({ irisEx with conn := [false, true] } : IrisTableModel).removeRows 0 1).2.1._cached_row_count =
        ({ irisEx with conn := [false, true] } : IrisTableModel)._cached_row_count ∧
     ∃ ids2 : List Int,
       (({ irisEx with conn := [false, true] } : IrisTableModel).removeRows 0 1).2.1.iris =
         ({ irisEx with conn := [false, true] } : IrisTableModel).iris.filter
           (fun r => ids2.all (fun idv => r.id != idv))) :=
  ⟨⟨by decide,
    C5_store_failure_behavior.1 irisC5 3 2 (by decide) (by decide) (by decide) (by decide)⟩,
   by decide,
   C5_store_failure_behavior.2 { irisEx with conn := [false, true] } 0 1
     (by decide) (by decide) (by decide) (by decide) (by decide)⟩

/-- C5 counterexample: with the store raising on the second `INSERT` of a
two row batch, `insertRows` returns `False` and completes the bracketing
notifications, but the state is not left unchanged: the first default row
persists in the backing table (and the cached row count is now stale). -/
theorem C5_counterexample :
    (irisC5.insertRows 3 2).1 = false ∧
    (irisC5.insertRows 3 2).2.2 = [Sig.beginInsertRows 3 4, Sig.endInsertRows] ∧
    (irisC5.insertRows 3 2).2.1.iris ≠ irisC5.iris ∧
    (irisC5.insertRows 3 2).2.1.iris = irisC5.iris ++ [irisDefaultRow 3] ∧
    (irisC5.insertRows 3 2).2.1._cached_row_count = 3 ∧
    (irisC5.insertRows 3 2).2.1.iris.length = 4 := by decide

theorem irisCoerce_shape (col : Int) (v v2 : PyVal) (h : irisCoerce col v = some v2) :
    (col < 4 ∧ ∃ q, v2 = .pfloat q) ∨ (¬ col < 4 ∧ ∃ s, v2 = .pstr s) := by
  unfold irisCoerce at h
  split_ifs at h with hc
  · rcases hv : pyFloat v with _ | q
    · rw [hv] at h
      simp at h
    · rw [hv] at h
      have h2 : PyVal.pfloat q = v2 := by simpa using h
      exact Or.inl ⟨hc, q, h2.symm⟩
  · simp only [Option.some.injEq] at h
    exact Or.inr ⟨hc, pyStr v, h.symm⟩

theorem irisRender_setCol (r : IrisRow) (c : Nat) (v2 : PyVal) (hc5 : c < 5)
    (h : (c < 4 ∧ ∃ q, v2 = .pfloat q) ∨ (¬ c < 4 ∧ ∃ s, v2 = .pstr s)) :
    irisRender (r.setCol c v2) c = irisRenderV v2 := by
  rcases h with ⟨h4, q, rfl⟩ | ⟨h4, s, rfl⟩
  · interval_cases c <;>
      simp [IrisRow.setCol, irisRender, IrisRow.numAt, irisRenderV]
  · have hc4 : c = 4 := by omega
    subst hc4
    simp [IrisRow.setCol, irisRender, irisRenderV]

theorem py_data_eval (m : PythonTableModel) (row col : Int) (h0 : 0 ≤ row)
    (h1 : row < (m._data.length : Int)) (h2 : 0 ≤ col)
    (h3 : col < (m._columns.length : Int)) :
    m.data row col .display =
      some (pyStr (rowGet (m._data.getD row.toNat []) col.toNat)) := by
  have hvalid : indexValid row col = true := by
    simp only [indexValid, Bool.and_eq_true, decide_eq_true_eq]
    exact ⟨h0, h2⟩
  unfold PythonTableModel.data
  rw [if_neg (by simp [hvalid]), if_neg (by omega), if_neg (by omega), if_pos (Or.inl rfl)]

theorem pg_data_eval (m : PostgresTableModel) (row col : Int) (h0 : 0 ≤ row)
    (h1 : row < (m._df.length : Int)) (h2 : 0 ≤ col)
    (h3 : col < (m.schema.length : Int)) :
    m.data row col .display =
      some (match (m._df.getD row.toNat []).getD col.toNat none with
            | none => ""
            | some v => pyStr v) := by
  have hvalid : indexValid row col = true := by
    simp only [indexValid, Bool.and_eq_true, decide_eq_true_eq]
    exact ⟨h0, h2⟩
  unfold PostgresTableModel.data
  rw [if_neg (by simp [hvalid]), if_neg (by omega), if_neg (by omega), if_pos (Or.inl rfl)]

theorem iris_data_eval (m : IrisTableModel) (row col : Int) (hconn : m.conn = [])
    (h0 : 0 ≤ row) (h1 : row < (m._cached_row_count : Int)) (h2 : 0 ≤ col)
    (h3 : col < (irisColumns.length : Int)) (r : IrisRow)
    (hr : m.sortedRows[row.toNat]? = some r) :
    (m.data row col .display).1 = .ok (some (irisRender r col.toNat)) := by
  have hvalid : indexValid row col = true := by
    simp only [indexValid, Bool.and_eq_true, decide_eq_true_eq]
    exact ⟨h0, h2⟩
  unfold IrisTableModel.data
  rw [if_neg (by simp [hvalid]), if_neg (by omega), if_neg (by omega), if_pos (Or.inl rfl)]
  rw [getRowByPosition_nil hconn, hr]

/-- C6 (amended): after a successful `setCellValue(r, c, v)`, a subsequent
`cellValue(r, c, displayRole)` returns the textual rendering of the coerced
value — unconditionally for the list backed and data frame backed adapters
(which store the cell in place), and for the embedded database adapter
whenever no sort is active (`_sort_column = -1`); with an active sort the
embedded database adapter re-resolves position `r` through the sorted
query, so the round trip is only guaranteed when the update does not move
the edited row. -/
theorem C6_set_then_display :
    (∀ (m : PythonTableModel) (row col : Int) (v v2 : PyVal) (role : Role),
        (∀ r ∈ m._data, r.length = m._columns.length) →
        0 ≤ row → row < (m._data.length : Int) →
        0 ≤ col → col < (m._columns.length : Int) →
        (role = .edit ∨ role = .display) →
        pyCoerce col v = some v2 →
        ((m.setData row col v role).1 = true ∧
         ((m.setData row col v role).2.1).data row col .display = some (pyStr v2))) ∧
    (∀ (m : PostgresTableModel) (row col : Int) (v v2 : PyVal) (role : Role),
        (∀ r ∈ m._df, r.length = m.schema.length) →
        0 ≤ row → row < (m._df.length : Int) →
        0 ≤ col → col < (m.schema.length : Int) →
        (role = .edit ∨ role = .display) →
        pgCoerce (m.schema.getD col.toNat ("", .tstr)).2 v = some v2 →
        ((m.setData row col v role).1 = true ∧
         ((m.setData row col v role).2.1).data row col .display = some (pyStr v2))) ∧
    (∀ (m : IrisTableModel) (row col : Int) (v v2 : PyVal) (role : Role),
        m.conn = [] → m._cached_row_count = m.iris.length → m._sort_column = -1 →
        0 ≤ row → row < (m._cached_row_count : Int) →
        0 ≤ col → col < (irisColumns.length : Int) →
        (role = .edit ∨ role = .display) →
        irisCoerce col v = some v2 →
        (∃ st : IrisTableModel,
          m.setData row col v role = .ok (true, st, [Sig.dataChanged row col]) ∧
          (st.data row col .display).1 = .ok (some (irisRenderV v2)))) := by
  refine ⟨?_, ?_, ?_⟩
  · intro m row col v v2 role hwf h0 h1 h2 h3 hrole hco
    have hvalid : indexValid row col = true := by
      simp only [indexValid, Bool.and_eq_true, decide_eq_true_eq]
      exact ⟨h0, h2⟩
    have hrow : row.toNat < m._data.length := by omega
    have hres : m.setData row col v role =
        (true, { m with _data := m._data.set row.toNat ((m._data.getD row.toNat []).set col.toNat v2) }, [Sig.dataChanged row col]) := by
      unfold PythonTableModel.setData
      rw [if_neg (by simp [hvalid]), if_neg (by omega), if_neg (by omega), if_pos hrole]
      simp only [hco]
    have hrl : (m._data.getD row.toNat []).length = m._columns.length := by
      have hmem : m._data.getD row.toNat [] ∈ m._data := by
        rw [List.getD_eq_getElem?_getD, List.getElem?_eq_getElem hrow]
        exact List.getElem_mem hrow
      exact hwf _ hmem
    have hcol : col.toNat < (m._data.getD row.toNat []).length := by
      rw [hrl]
      omega
    refine ⟨by rw [hres], ?_⟩
    rw [hres]
    have heval := py_data_eval
      { m with _data := m._data.set row.toNat ((m._data.getD row.toNat []).set col.toNat v2) }
      row col h0 (by simp only [List.length_set]; omega) h2 h3
    have hrowset : (m._data.set row.toNat
        ((m._data.getD row.toNat []).set col.toNat v2)).getD row.toNat []
          = (m._data.getD row.toNat []).set col.toNat v2 := by
      rw [List.getD_eq_getElem?_getD, List.getElem?_set_self hrow, Option.getD_some]
    have hcell : rowGet ((m._data.set row.toNat
        ((m._data.getD row.toNat []).set col.toNat v2)).getD row.toNat []) col.toNat = v2 := by
      unfold rowGet
      rw [hrowset, List.getD_eq_getElem?_getD, List.getElem?_set_self hcol, Option.getD_some]
    rw [hcell] at heval
    exact heval
  · intro m row col v v2 role hwf h0 h1 h2 h3 hrole hco
    have hvalid : indexValid row col = true := by
      simp only [indexValid, Bool.and_eq_true, decide_eq_true_eq]
      exact ⟨h0, h2⟩
    have hrow : row.toNat < m._df.length := by omega
    have hres : m.setData row col v role =
        (true, { m with _df := m._df.set row.toNat ((m._df.getD row.toNat []).set col.toNat (some v2)) }, [Sig.dataChanged row col]) := by
      unfold PostgresTableModel.setData
      rw [if_neg (by simp [hvalid]), if_neg (by omega), if_neg (by omega), if_pos hrole]
      simp only [hco]
    have hrl : (m._df.getD row.toNat []).length = m.schema.length := by
      have hmem : m._df.getD row.toNat [] ∈ m._df := by
        rw [List.getD_eq_getElem?_getD, List.getElem?_eq_getElem hrow]
        exact List.getElem_mem hrow
      exact hwf _ hmem
    have hcol : col.toNat < (m._df.getD row.toNat []).length := by
      rw [hrl]
      omega
    refine ⟨by rw [hres], ?_⟩
    rw [hres]
    have heval := pg_data_eval
      { m with _df := m._df.set row.toNat ((m._df.getD row.toNat []).set col.toNat (some v2)) }
      row col h0 (by simp only [List.length_set]; omega) h2 h3
    have hrowset : (m._df.set row.toNat
        ((m._df.getD row.toNat []).set col.toNat (some v2))).getD row.toNat []
          = (m._df.getD row.toNat []).set col.toNat (some v2) := by
      rw [List.getD_eq_getElem?_getD, List.getElem?_set_self hrow, Option.getD_some]
    have hcell : ((m._df.set row.toNat
        ((m._df.getD row.toNat []).set col.toNat (some v2))).getD row.toNat []).getD col.toNat none
          = some v2 := by
      rw [hrowset, List.getD_eq_getElem?_getD, List.getElem?_set_self hcol, Option.getD_some]
    rw [hcell] at heval
    exact heval
  · intro m row col v v2 role hconn hcache hsc h0 h1 h2 h3 hrole hco
    have hvalid : indexValid row col = true := by
      simp only [indexValid, Bool.and_eq_true, decide_eq_true_eq]
      exact ⟨h0, h2⟩
    have hrowlt : row.toNat < m.iris.length := by omega
    have hsrows : m.sortedRows = m.iris := by
      unfold IrisTableModel.sortedRows
      rw [if_neg (by omega)]
    have hget : m.getRowByPosition row.toNat = (.ok (some (m.iris[row.toNat])), m) := by
      rw [getRowByPosition_nil hconn, hsrows, List.getElem?_eq_getElem hrowlt]
    refine ⟨{ m with iris := m.iris.map (fun x => if x.id = (m.iris[row.toNat]).id then x.setCol col.toNat v2 else x) }, ?_, ?_⟩
    · unfold IrisTableModel.setData
      rw [if_neg (by simp [hvalid]), if_neg (by omega), if_neg (by omega), if_pos hrole]
      simp only [hget, hco, exec_nil hconn, Bool.false_eq_true, if_false]
    · have hstsorted : ({ m with iris := m.iris.map (fun x => if x.id = (m.iris[row.toNat]).id then x.setCol col.toNat v2 else x) } : IrisTableModel).sortedRows
          = m.iris.map (fun x => if x.id = (m.iris[row.toNat]).id then x.setCol col.toNat v2 else x) := by
        unfold IrisTableModel.sortedRows
        rw [if_neg (by simp only []; omega)]
      have hmapget : (m.iris.map (fun x => if x.id = (m.iris[row.toNat]).id then x.setCol col.toNat v2 else x))[row.toNat]?
          = some ((m.iris[row.toNat]).setCol col.toNat v2) := by
        rw [List.getElem?_map, List.getElem?_eq_getElem hrowlt]
        simp
      have hstget : ({ m with iris := m.iris.map (fun x => if x.id = (m.iris[row.toNat]).id then x.setCol col.toNat v2 else x) } : IrisTableModel).sortedRows[row.toNat]?
          = some ((m.iris[row.toNat]).setCol col.toNat v2) := by
        rw [hstsorted]
        exact hmapget
      have heval := iris_data_eval
        { m with iris := m.iris.map (fun x => if x.id = (m.iris[row.toNat]).id then x.setCol col.toNat v2 else x) }
        row col hconn h0 h1 h2 h3 ((m.iris[row.toNat]).setCol col.toNat v2) hstget
      have hlen5 : (irisColumns.length : Int) = 5 := rfl
      rw [irisRender_setCol _ _ _ (by omega)
        (by rcases irisCoerce_shape col v v2 hco with ⟨hlt, q, hq⟩ | ⟨hge, s, hs⟩
            · exact Or.inl ⟨by omega, q, hq⟩
            · exact Or.inr ⟨by omega, s, hs⟩)] at heval
      exact heval

unseal List.merge List.mergeSort in
/-- C6 counterexample: in the embedded database adapter with an ascending
sort on the first column active, a successful `setData(0, 0, "9.0")` moves
the edited row to the other sorted position, so the subsequent
`data(0, 0, displayRole)` shows the other row's value `"2.00"` rather than
the written value's rendering `"9.00"` — the claimed unconditional round
trip fails. -/
theorem C6_counterexample :
    irisC6.setData 0 0 (.pstr "9.0") .edit = .ok (true, irisC6upd, [Sig.dataChanged 0 0]) ∧
    irisCoerce 0 (.pstr "9.0") = some (.pfloat ⟨90, 9⟩) ∧
    formatFixed2 ⟨90, 9⟩ = "9.00" ∧
    (irisC6upd.data 0 0 .display).1 = .ok (some "2.00") ∧
    ("2.00" : String) ≠ "9.00" := by
  refine ⟨rfl, by decide, by decide, rfl, by decide⟩

/-- Witness for C6 (amended): writing a Score, a priority and a sepal
length on the concrete fixtures and reading the same cell back. -/
theorem C6_witness :
    ((pyInit.setData 0 3 (.pstr "91.25") .edit).1 = true ∧
     ((pyInit.setData 0 3 (.pstr "91.25") .edit).2.1).data 0 3 .display =
       some (pyStr (.pfloat ⟨9125, 99⟩))) ∧
    ((pgEx.setData 0 1 (.pstr "7") .edit).1 = true ∧
     ((pgEx.setData 0 1 (.pstr "7") .edit).2.1).data 0 1 .display =
       some (pyStr (.pint 7))) ∧
    (∃ st : IrisTableModel,
      irisEx.setData 0 0 (.pstr "6.5") .edit = .ok (true, st, [Sig.dataChanged 0 0]) ∧
      (st.data 0 0 .display).1 = .ok (some (irisRenderV (.pfloat ⟨65, 9⟩)))) :=
  ⟨C6_set_then_display.1 pyInit 0 3 (.pstr "91.25") (.pfloat ⟨9125, 99⟩) .edit
     (by decide) (by decide) (by decide) (by decide) (by decide) (Or.inl rfl) (by decide),
   C6_set_then_display.2.1 pgEx 0 1 (.pstr "7") (.pint 7) .edit
     (by decide) (by decide) (by decide) (by decide) (by decide) (Or.inl rfl) (by decide),
   C6_set_then_display.2.2 irisEx 0 0 (.pstr "6.5") (.pfloat ⟨65, 9⟩) .edit
     rfl rfl rfl (by decide) (by decide) (by decide) (by decide) (Or.inl rfl) (by decide)⟩

/-- C8 (amended): the list backed adapter returns the 1-based row number
for every in-range vertical section and the empty string for every
out-of-range section, both orientations; the embedded database and data
frame backed adapters bounds check only horizontal sections (returning
absent when out of range) and return the fabricated label `section + 1`
for EVERY vertical section, in range or not — their vertical branch has
no bounds check. -/
theorem C8_headerData :
    (∀ (m : PythonTableModel) (sec : Int),
        (0 ≤ sec → sec < (m._data.length : Int) →
          m.headerData sec .vertical .display = toString (sec + 1)) ∧
        (¬ (0 ≤ sec ∧ sec < (m._data.length : Int)) →
          m.headerData sec .vertical .display = "") ∧
        (¬ (0 ≤ sec ∧ sec < (m._columns.length : Int)) →
          m.headerData sec .horizontal .display = "")) ∧
    (∀ (m : IrisTableModel) (sec : Int),
        m.headerData sec .vertical .display = some (.pint (sec + 1)) ∧
        (¬ (0 ≤ sec ∧ sec < (irisColumns.length : Int)) →
          m.headerData sec .horizontal .display = none)) ∧
    (∀ (m : PostgresTableModel) (sec : Int),
        m.headerData sec .vertical .display = some (.pint (sec + 1)) ∧
        (¬ (0 ≤ sec ∧ sec < (m.schema.length : Int)) →
          m.headerData sec .horizontal .display = none)) := by
  refine ⟨?_, ?_, ?_⟩
  · intro m sec
    refine ⟨?_, ?_, ?_⟩
    · intro ha hb
      simp [PythonTableModel.headerData, ha, hb]
    · intro h
      simp [PythonTableModel.headerData, h]
    · intro h
      simp [PythonTableModel.headerData, h]
  · intro m sec
    refine ⟨rfl, ?_⟩
    intro h
    simp [IrisTableModel.headerData, h]
  · intro m sec
    refine ⟨rfl, ?_⟩
    intro h
    simp [PostgresTableModel.headerData, h]

/-- C8 counterexample: on the concrete embedded database fixture with 3
rows, asking for the vertical header of section 10 — far out of range —
returns the fabricated row number 11 instead of the absent value the
claim requires. -/
theorem C8_counterexample :
    irisEx.rowCount = 3 ∧
    irisEx.headerData 10 .vertical .display = some (.pint 11) ∧
    some (PyVal.pint 11) ≠ (none : Option PyVal) :=
  ⟨rfl, rfl, by decide⟩

/-- Witness for C8 (amended): concrete header reads on all three
fixtures, in range and out of range. -/
theorem C8_witness :
    pyInit.headerData 2 .vertical .display = toString (2 + 1 : Int) ∧
    pyInit.headerData 10 .vertical .display = "" ∧
    pyInit.headerData (-1) .horizontal .display = "" ∧
    irisEx.headerData 10 .vertical .display = some (.pint (10 + 1)) ∧
    irisEx.headerData 10 .horizontal .display = none ∧
    pgEx.headerData 5 .vertical .display = some (.pint (5 + 1)) ∧
    pgEx.headerData 5 .horizontal .display = none :=
  ⟨(C8_headerData.1 pyInit 2).1 (by decide) (by decide),
   (C8_headerData.1 pyInit 10).2.1 (by decide),
   (C8_headerData.1 pyInit (-1)).2.2 (by decide),
   (C8_headerData.2.1 irisEx 10).1,
   (C8_headerData.2.1 irisEx 10).2 (by decide),
   (C8_headerData.2.2 pgEx 5).1,
   (C8_headerData.2.2 pgEx 5).2 (by decide)⟩

end TableModels